import Mathlib

/-!
# DS block post-processing (`src/libDirectoryService/DSBlockPostProcessing.cpp`)

A shallow embedding of the directory-service code that runs once the consensus
round on a DS block ends: storing the block, choosing the nodes the block is
sent to, rotating the DS committee and updating this node's mode and consensus
index, together with the admission gate in front of the consensus object.

Conventions of the embedding.

* Member variables of `DirectoryService` (and the parts of `Mediator` it
  touches) are fields of the record `DirectoryService`; a member function is a
  function from records to records.
* `unsigned int` / `uint32_t` values are naturals reduced modulo `2 ^ 32`,
  `size_t` values are naturals reduced modulo `2 ^ 64` where the source
  converts or subtracts.
* Everything declared in headers that are not part of this file (constants,
  the serializer, the consensus protocol, `CheckState`) is a field of the
  record `Env`.
* Undefined behaviour and uncaught exceptions end a run with a `Fault`; the
  record reached at that point is kept, because the writes made before the
  fault stay made.
-/

namespace Zilliqa

/-! ## Data model -/

/-- A byte string (`std::vector<unsigned char>`); every entry is a byte value. -/
abbrev Bytes := List Nat

/-- Public key of a node, compared by value. -/
structure PubKey where
  key : Nat
deriving DecidableEq, Repr, Inhabited

/-- Network address of a node. -/
structure Peer where
  m_ipAddress : Nat
  m_listenPortHost : Nat
deriving DecidableEq, Repr, Inhabited

/-- Co-signature set that `SetCoSignatures` copies from the consensus object. -/
structure CoSignatures where
  CS1 : Nat
  B1 : List Bool
  CS2 : Nat
  B2 : List Bool
deriving DecidableEq, Repr, Inhabited

/-- Header fields of a DS block that this file reads through getters. -/
structure DSBlockHeader where
  blockNum : Nat
  nonce : Nat
  difficulty : Nat
  timestamp : Nat
  minerPubKey : PubKey
deriving DecidableEq, Repr, Inhabited

/-- A DS block: header plus the co-signatures attached after consensus. -/
structure DSBlock where
  header : DSBlockHeader
  cosigs : CoSignatures
deriving DecidableEq, Repr, Inhabited

/-- `DirectoryService::Mode`. -/
inductive Mode where
  | IDLE
  | PRIMARY_DS
  | BACKUP_DS
deriving DecidableEq, Repr, Inhabited

/-- `DirectoryService::DirState`, the enumerators this file names plus the
consensus state the handler normally runs in. -/
inductive DirState where
  | POW1_SUBMISSION
  | DSBLOCK_CONSENSUS_PREP
  | DSBLOCK_CONSENSUS
  | MICROBLOCK_SUBMISSION
deriving DecidableEq, Repr, Inhabited

/-- `Node::NodeState`, reduced to whether `TX_SUBMISSION` was requested. -/
inductive NodeState where
  | OTHER
  | TX_SUBMISSION
deriving DecidableEq, Repr, Inhabited

/-- `SyncType` of the lookup object; only `NO_SYNC` lets messages through. -/
inductive SyncType where
  | NO_SYNC
  | NEW_SYNC
  | NORMAL_SYNC
  | DS_SYNC
  | LOOKUP_SYNC
deriving DecidableEq, Repr, Inhabited

/-- Modelled from the spec: the states of the consensus engine, "a capability
ConsensusEngine with states ACTIVE, DONE, ERROR"; the enumeration
`ConsensusCommon::State` itself is declared outside this file, which names
only `DONE` and `ERROR`. -/
inductive ConsensusState where
  | ACTIVE
  | DONE
  | ERROR
deriving DecidableEq, Repr, Inhabited

/-- The consensus object as far as this file reads it: its state
(`GetState`) and the co-signatures `SetCoSignatures` takes from it. The
protocol state proper is the opaque number `internal`. -/
structure ConsensusObject where
  state : ConsensusState
  cosigs : CoSignatures
  internal : Nat
deriving DecidableEq, Repr, Inhabited

/-- Keys of `BlockStorage::PutMetadata`; this file writes one of them. -/
inductive MetaType where
  | LATESTACTIVEDSBLOCKNUM
deriving DecidableEq, Repr, Inhabited

/-- The calls made on `BlockStorage`, recorded in order (latest last). -/
structure BlockStorage where
  dsBlocks : List (Nat × Bytes)
  txBodyDBs : List Nat
  metadata : List (MetaType × Bytes)
deriving DecidableEq, Repr, Inhabited

/-- Modelled from the spec: the append-only block chain `ChainStore`
("`AppendBlock(block) -> Result<index, Error>`, `LastBlock() -> Block`,
`CommittedLength() -> integer`"); class `DSBlockChain` is declared outside
this file. The chain is the list of appended blocks, oldest first. -/
abbrev DSBlockChain := List DSBlock

/-- Modelled from the spec: `ChainStore.LastBlock()`, the block appended
last (`DSBlockChain::GetLastBlock`); a default block on an empty chain. -/
def DSBlockChain.GetLastBlock (chain : DSBlockChain) : DSBlock :=
  chain.getLast?.getD default

/-- Modelled from the spec: `ChainStore.CommittedLength()`
(`DSBlockChain::GetBlockCount`). -/
def DSBlockChain.GetBlockCount (chain : DSBlockChain) : Nat :=
  chain.length

/-- Modelled from the spec: `ChainStore.AppendBlock(block) -> Result<index,
Error>` (`DSBlockChain::AddBlock`, which reports failure as `-1`). The spec
does not say when an append fails, so the decision is the parameter
`accepts`; a refused block leaves the chain as it was, an accepted one
becomes the last block and its index is returned. -/
def DSBlockChain.AddBlock (accepts : DSBlockChain → DSBlock → Bool)
    (chain : DSBlockChain) (block : DSBlock) : Int × DSBlockChain :=
  if accepts chain block then ((chain.length : Int), chain ++ [block]) else (-1, chain)

/-- Everything the code takes from headers and classes outside this file. -/
structure Env where
  /-- Width in bits of the member `m_consensusMyID` (declared in
  `DirectoryService.h`). -/
  idBits : Nat
  /-- Constant of `common/Constants.h` (`unsigned int`). -/
  DS_MULTICAST_CLUSTER_SIZE : Nat
  /-- Constant of `common/Constants.h` (`unsigned int`). -/
  COMM_SIZE : Nat
  /-- Constant of `common/Constants.h` (`unsigned int`). -/
  TX_SHARING_CLUSTER_SIZE : Nat
  /-- Constant of `common/Constants.h`. -/
  TEST_NET_MODE : Bool
  /-- Byte value of `MessageType::NODE`. -/
  NODE : Nat
  /-- Byte value of `NodeInstructionType::DSBLOCK`. -/
  DSBLOCK : Nat
  /-- The call `block.Serialize(dst, offset)`: the buffer it leaves in `dst`. -/
  Serialize : DSBlock → Bytes → Nat → Bytes
  /-- When `DSBlockChain::AddBlock` takes a block. -/
  accepts : DSBlockChain → DSBlock → Bool
  /-- The seed `Mediator::UpdateDSBlockRand` derives from the chain. -/
  dsBlockRandOf : DSBlockChain → Bytes
  /-- The call `ConsensusCommon::CanProcessMessage(message, offset)`. -/
  CanProcessMessage : ConsensusObject → Bytes → Nat → Bool
  /-- The call `ConsensusCommon::ProcessMessage(message, offset, from)`: its
  result and the consensus object it leaves. -/
  ProcessMessage : ConsensusObject → Bytes → Nat → Peer → Bool × ConsensusObject
  /-- The call `CheckState(PROCESS_DSBLOCKCONSENSUS)`, which reads the mode
  and the state. -/
  CheckState : Mode → DirState → Bool

/-- The member variables read or written by this file. -/
structure DirectoryService where
  m_mode : Mode
  m_state : DirState
  m_consensusMyID : Nat
  /-- The deque `m_mediator.m_DSCommittee`, front first. -/
  m_DSCommittee : List (PubKey × Peer)
  /-- The map `m_allPoWConns`, in iteration order. -/
  m_allPoWConns : List (PubKey × Peer)
  m_allPoW2s : List (PubKey × Nat)
  m_sortedPoW2s : List (Nat × PubKey)
  m_viewChangeCounter : Nat
  /-- The pointer `m_pendingDSBlock`; `none` is `nullptr`. -/
  m_pendingDSBlock : Option DSBlock
  m_DSBlockConsensusRawMessage : Bytes
  /-- The pointer `m_consensusObject`; `none` is `nullptr`. -/
  m_consensusObject : Option ConsensusObject
  m_latestActiveDSBlockNum : Nat
  /-- The chain `m_mediator.m_dsBlockChain`. -/
  m_dsBlockChain : DSBlockChain
  /-- The array `m_mediator.m_dsBlockRand` of `BLOCK_HASH_SIZE` bytes. -/
  m_dsBlockRand : Bytes
  /-- The field `m_mediator.m_lookup->m_syncType`. -/
  m_syncType : SyncType
  /-- State of `m_mediator.m_node`. -/
  nodeState : NodeState
  /-- Calls made on `BlockStorage::GetBlockStorage()`. -/
  storage : BlockStorage
  /-- Messages handed to `SendMessageToLookupNodes`, latest last. -/
  lookupSent : List Bytes
  /-- Calls of `P2PComm::SendBroadcastMessage`, latest last. -/
  broadcastSent : List (List Peer × Bytes)
  /-- Number of calls of `Whitelist::UpdateShardWhitelist`. -/
  whitelistUpdates : Nat
  /-- Number of detached `RunConsensusOnFinalBlock` calls started. -/
  finalBlockConsensusRuns : Nat
deriving DecidableEq, Repr, Inhabited

/-- How a run of the post-processing code can end abnormally. -/
inductive Fault where
  /-- A `nullptr` `m_pendingDSBlock` is dereferenced (line 292). -/
  | nullPendingDSBlock
  /-- A `nullptr` `m_consensusObject` is dereferenced (lines 292, 476). -/
  | nullConsensusObject
  /-- The call `m_allPoWConns.at(key)` throws `std::out_of_range` (line 315). -/
  | winnerNotInPoWConns
  /-- An integer division by zero (lines 127, 134, 140). -/
  | divisionByZero
  /-- The map iterator is moved or read past `end()` (lines 176-183). -/
  | iteratorOutOfRange
deriving DecidableEq, Repr, Inhabited

/-- Result of a run: the record reached, and the fault that ended the run if
there was one. -/
structure Outcome where
  fault : Option Fault
  state : DirectoryService
deriving DecidableEq, Repr

/-- Modulus of `unsigned int` and `uint32_t`. -/
def UINT_MOD : Nat := 2 ^ 32

/-- Modulus of `size_t` and `uint64_t`. -/
def SIZE_MOD : Nat := 2 ^ 64

/-! ## Committee rotation and role update (lines 208-263) -/

/-- `UpdateMyDSModeAndConsensusId` (lines 208-249). The comparison is made
on `(uint32_t)(m_consensusMyID + 1)`; `m_consensusMyID++` wraps at the width
of the member. -/
def UpdateMyDSModeAndConsensusId (E : Env) (ds : DirectoryService) : DirectoryService :=
  if ds.m_mode = Mode.PRIMARY_DS then
    { ds with m_mode := Mode.BACKUP_DS,
              m_consensusMyID := (ds.m_consensusMyID + 1) % 2 ^ E.idBits }
  else if (ds.m_consensusMyID + 1) % UINT_MOD = ds.m_DSCommittee.length then
    { ds with m_mode := Mode.IDLE }
  else
    { ds with m_consensusMyID := (ds.m_consensusMyID + 1) % 2 ^ E.idBits }

/-- `UpdateDSCommiteeComposition` (lines 251-263): `push_front` of the pair
(miner key of the last block, winner peer), `pop_back`, and `erase` of that
key from `m_allPoWConns`. -/
def UpdateDSCommiteeComposition (ds : DirectoryService) (winnerpeer : Peer) :
    DirectoryService :=
  let minerPubKey := ds.m_dsBlockChain.GetLastBlock.header.minerPubKey
  let pushed := (minerPubKey, winnerpeer) :: ds.m_DSCommittee
  { ds with m_DSCommittee := pushed.dropLast,
            m_allPoWConns := ds.m_allPoWConns.filter (fun e => e.1 ≠ minerPubKey) }

/-! ## Choosing the nodes the DS block is sent to (lines 105-149) -/

/-- `DetermineNodesToSendDSBlockTo` (lines 126-148) as a function of the
sizes it reads: `committeeSize` is `m_mediator.m_DSCommittee.size()`,
`powSize` is `m_allPoWConns.size()` (both `size_t`), `consensusMyID` is
`m_consensusMyID` and `clusterSize` is `DS_MULTICAST_CLUSTER_SIZE`. The
locals are `unsigned int`, so what is stored in them is reduced modulo
`2 ^ 32`. The result is `(my_DS_cluster_num, my_pow1nodes_cluster_lo,
my_pow1nodes_cluster_hi)`, or `none` when the code divides by zero. -/
def DetermineNodesToSendDSBlockTo (committeeSize powSize consensusMyID clusterSize : Nat) :
    Option (Nat × Nat × Nat) :=
  if clusterSize = 0 then none
  else
    let num_DS_clusters0 := (committeeSize / clusterSize) % UINT_MOD
    let num_DS_clusters :=
      if committeeSize % clusterSize > 0 then (num_DS_clusters0 + 1) % UINT_MOD
      else num_DS_clusters0
    if num_DS_clusters = 0 then none
    else
      let pow1nodes_cluster_size0 := (powSize / num_DS_clusters) % UINT_MOD
      let pow1nodes_cluster_size :=
        if powSize % num_DS_clusters > 0 then (pow1nodes_cluster_size0 + 1) % UINT_MOD
        else pow1nodes_cluster_size0
      let my_DS_cluster_num := (consensusMyID / clusterSize) % UINT_MOD
      let my_pow1nodes_cluster_lo := (my_DS_cluster_num * pow1nodes_cluster_size) % UINT_MOD
      let my_pow1nodes_cluster_hi :=
        (my_pow1nodes_cluster_lo + pow1nodes_cluster_size + UINT_MOD - 1) % UINT_MOD
      if my_pow1nodes_cluster_hi ≥ powSize then
        some (my_DS_cluster_num, my_pow1nodes_cluster_lo,
          ((powSize + SIZE_MOD - 1) % SIZE_MOD) % UINT_MOD)
      else
        some (my_DS_cluster_num, my_pow1nodes_cluster_lo, my_pow1nodes_cluster_hi)

/-- The member function on the record: it reads the three sizes. -/
def DirectoryService.DetermineNodesToSendDSBlockTo (E : Env) (ds : DirectoryService) :
    Option (Nat × Nat × Nat) :=
  Zilliqa.DetermineNodesToSendDSBlockTo ds.m_DSCommittee.length ds.m_allPoWConns.length
    ds.m_consensusMyID E.DS_MULTICAST_CLUSTER_SIZE

/-! ## Building and sending the DSBLOCK message (lines 76-103, 151-206) -/

/-- Modelled from the spec: `MessageOffset::BODY`, the length of the "fixed
2-byte type/subtype" part in front of a message body; the enumeration is
declared in `common/Messages.h`. -/
def MessageOffset.BODY : Nat := 2

/-- Modelled from the spec: `BLOCK_HASH_SIZE`, the length of the "32-byte
round-random-seed value"; the constant is declared in
`common/Constants.h`. -/
def BLOCK_HASH_SIZE : Nat := 32

/-- The call `std::copy(src.begin(), src.end(), dst.begin() + offset)` for a
source that fits into `dst` from `offset` on. -/
def copyAt (dst : Bytes) (offset : Nat) (src : Bytes) : Bytes :=
  dst.take offset ++ src ++ dst.drop (offset + src.length)

/-- The vector `dsblock_message` of `SendDSBlockToLookupNodes` (lines 80-95). -/
def SendDSBlockToLookupNodes.dsblock_message (E : Env) (ds : DirectoryService) : Bytes :=
  let dsblock_message : Bytes := [E.NODE, E.DSBLOCK]
  let curr_offset := MessageOffset.BODY
  let dsblock_message := dsblock_message ++
    List.replicate (BLOCK_HASH_SIZE + ds.m_DSBlockConsensusRawMessage.length) 0
  let dsblock_message := copyAt dsblock_message curr_offset ds.m_dsBlockRand
  let curr_offset := curr_offset + BLOCK_HASH_SIZE
  copyAt dsblock_message curr_offset ds.m_DSBlockConsensusRawMessage

/-- `SendDSBlockToLookupNodes` (lines 76-103); the returned `true` is dropped
by the caller. -/
def SendDSBlockToLookupNodes (E : Env) (ds : DirectoryService) : DirectoryService :=
  { ds with lookupSent := ds.lookupSent ++ [SendDSBlockToLookupNodes.dsblock_message E ds] }

/-- The vector `dsblock_message` of `SendDSBlockToCluster` (lines 156-171). -/
def SendDSBlockToCluster.dsblock_message (E : Env) (ds : DirectoryService) : Bytes :=
  let dsblock_message : Bytes := [E.NODE, E.DSBLOCK]
  let curr_offset := MessageOffset.BODY
  let dsblock_message := dsblock_message ++
    List.replicate (BLOCK_HASH_SIZE + ds.m_DSBlockConsensusRawMessage.length) 0
  let dsblock_message := copyAt dsblock_message curr_offset ds.m_dsBlockRand
  let curr_offset := curr_offset + BLOCK_HASH_SIZE
  copyAt dsblock_message curr_offset ds.m_DSBlockConsensusRawMessage

/-- `SendDSBlockToCluster` (lines 151-206). The iterator is advanced by
`my_pow1nodes_cluster_lo` and then read and stepped once for every `i` from
`lo` to `hi`; that is defined only while it stays inside the map, and a loop
whose bound `hi` is the largest `unsigned int` never ends by itself. -/
def SendDSBlockToCluster (E : Env) (ds : DirectoryService)
    (my_pow1nodes_cluster_lo my_pow1nodes_cluster_hi : Nat) : Outcome :=
  let dsblock_message := SendDSBlockToCluster.dsblock_message E ds
  if my_pow1nodes_cluster_lo ≤ my_pow1nodes_cluster_hi then
    if my_pow1nodes_cluster_hi < ds.m_allPoWConns.length
        ∧ my_pow1nodes_cluster_hi + 1 < UINT_MOD then
      let pow1nodes_cluster : List Peer :=
        ((ds.m_allPoWConns.drop my_pow1nodes_cluster_lo).take
          (my_pow1nodes_cluster_hi + 1 - my_pow1nodes_cluster_lo)).map (fun p => p.2)
      { fault := none
        state := { ds with
          broadcastSent := ds.broadcastSent ++ [(pow1nodes_cluster, dsblock_message)] } }
    else { fault := some Fault.iteratorOutOfRange, state := ds }
  else if my_pow1nodes_cluster_lo ≤ ds.m_allPoWConns.length then
    { fault := none
      state := { ds with broadcastSent := ds.broadcastSent ++ [([], dsblock_message)] } }
  else { fault := some Fault.iteratorOutOfRange, state := ds }

/-! ## Storing the block (lines 42-74) -/

/-- `DataConversion::StringToCharArray(to_string(n))`: the decimal digits of
`n` as bytes. -/
def DataConversion.StringToCharArray (n : Nat) : Bytes :=
  (toString n).toList.map Char.toNat

/-- `StoreDSBlockToStorage` (lines 42-74). A refused `AddBlock` is only
logged; the block is written to disk and the latest active block number is
set in both cases. -/
def StoreDSBlockToStorage (E : Env) (ds : DirectoryService) : Outcome :=
  match ds.m_pendingDSBlock with
  | none => { fault := some Fault.nullPendingDSBlock, state := ds }
  | some pendingDSBlock =>
    let result := DSBlockChain.AddBlock E.accepts ds.m_dsBlockChain pendingDSBlock
    let serializedDSBlock := E.Serialize pendingDSBlock [] 0
    let blockNum := pendingDSBlock.header.blockNum
    let m_latestActiveDSBlockNum := blockNum % SIZE_MOD
    { fault := none
      state := { ds with
        m_dsBlockChain := result.2
        m_latestActiveDSBlockNum := m_latestActiveDSBlockNum
        storage :=
          { dsBlocks := ds.storage.dsBlocks ++ [(blockNum, serializedDSBlock)]
            txBodyDBs := ds.storage.txBodyDBs ++ [blockNum]
            metadata := ds.storage.metadata ++
              [(MetaType.LATESTACTIVEDSBLOCKNUM,
                DataConversion.StringToCharArray m_latestActiveDSBlockNum)] } } }

/-! ## After consensus is done (lines 265-397) -/

/-- `DSBlock::SetCoSignatures(consensusObject)`. -/
def DSBlock.SetCoSignatures (block : DSBlock) (consensusObject : ConsensusObject) : DSBlock :=
  { block with cosigs := consensusObject.cosigs }

/-- `SetState(state)`. -/
def SetState (ds : DirectoryService) (state : DirState) : DirectoryService :=
  { ds with m_state := state }

/-- Lines 318-347 of `ProcessDSBlockConsensusWhenDone`: the block is sent to
the lookup nodes when this node's index lies strictly between `COMM_SIZE / 4`
and that plus `TX_SHARING_CLUSTER_SIZE`, and to this node's cluster of PoW
nodes when the cluster number passes the guard of line 344. -/
def ProcessDSBlockConsensusWhenDone.send (E : Env) (ds : DirectoryService) : Outcome :=
  -- lines 322-330
  let nodeToSendToLookUpLo := (E.COMM_SIZE / 4) % UINT_MOD
  let nodeToSendToLookUpHi := (nodeToSendToLookUpLo + E.TX_SHARING_CLUSTER_SIZE) % UINT_MOD
  let ds :=
    if ds.m_consensusMyID > nodeToSendToLookUpLo ∧ ds.m_consensusMyID < nodeToSendToLookUpHi
    then SendDSBlockToLookupNodes E ds else ds
  -- lines 332-336
  match ds.DetermineNodesToSendDSBlockTo E with
  | none => { fault := some Fault.divisionByZero, state := ds }
  | some (my_DS_cluster_num, my_pow1nodes_cluster_lo, my_pow1nodes_cluster_hi) =>
    -- lines 344-347
    if (my_DS_cluster_num + 1) % UINT_MOD ≤ ds.m_allPoWConns.length
    then SendDSBlockToCluster E ds my_pow1nodes_cluster_lo my_pow1nodes_cluster_hi
    else { fault := none, state := ds }

/-- Lines 354-396 of `ProcessDSBlockConsensusWhenDone`: the committee is
rotated, the role updated, the per-round data cleared, and the next phase
started. `shardingTimedOut` says whether the wait on
`cv_scheduleFinalBlockConsensus` (line 378) ended by timeout. -/
def ProcessDSBlockConsensusWhenDone.rotate (E : Env) (shardingTimedOut : Bool)
    (ds : DirectoryService) (winnerpeer : Peer) : DirectoryService :=
  -- lines 354-355
  let ds := UpdateDSCommiteeComposition ds winnerpeer
  let ds := UpdateMyDSModeAndConsensusId E ds
  -- lines 357-362
  let ds := { ds with m_allPoW2s := [], m_sortedPoW2s := [], m_viewChangeCounter := 0 }
  -- lines 364-396
  if ds.m_mode ≠ Mode.IDLE then
    let ds := if E.TEST_NET_MODE then { ds with whitelistUpdates := ds.whitelistUpdates + 1 }
      else ds
    let ds := SetState ds DirState.MICROBLOCK_SUBMISSION
    if shardingTimedOut then
      { ds with finalBlockConsensusRuns := ds.finalBlockConsensusRuns + 1 }
    else ds
  else
    { ds with nodeState := NodeState.TX_SUBMISSION }

/-- `ProcessDSBlockConsensusWhenDone` (lines 265-397); lines 318-347 and
354-396 are the two functions above. -/
def ProcessDSBlockConsensusWhenDone (E : Env) (shardingTimedOut : Bool)
    (ds : DirectoryService) (_message : Bytes) (_offset : Nat) : Outcome :=
  -- lines 279-304
  match ds.m_pendingDSBlock with
  | none => { fault := some Fault.nullPendingDSBlock, state := ds }
  | some pendingDSBlock =>
  match ds.m_consensusObject with
  | none => { fault := some Fault.nullConsensusObject, state := ds }
  | some consensusObject =>
    let pendingDSBlock := pendingDSBlock.SetCoSignatures consensusObject
    let ds := { ds with
      m_pendingDSBlock := some pendingDSBlock
      m_DSBlockConsensusRawMessage :=
        E.Serialize pendingDSBlock ds.m_DSBlockConsensusRawMessage 0 }
    -- line 307
    let stored := StoreDSBlockToStorage E ds
    match stored.fault with
    | some _ => stored
    | none =>
    let ds := stored.state
    let lastDSBlock := ds.m_dsBlockChain.GetLastBlock
    -- line 310
    let ds := { ds with m_dsBlockRand := E.dsBlockRandOf ds.m_dsBlockChain }
    -- lines 312-316
    match ds.m_allPoWConns.lookup lastDSBlock.header.minerPubKey with
    | none => { fault := some Fault.winnerNotInPoWConns, state := ds }
    | some winnerpeer =>
    -- lines 318-347
    let sent := ProcessDSBlockConsensusWhenDone.send E ds
    match sent.fault with
    | some _ => sent
    | none =>
    -- lines 354-396
    { fault := none
      state := ProcessDSBlockConsensusWhenDone.rotate E shardingTimedOut sent.state winnerpeer }

/-! ## The admission gate (lines 400-513) -/

/-- What other threads do while `ProcessDSBlockConsensus` is blocked. The
function runs among other threads and gives up its locks at three waits; what
it finds when a wait ends is an input of the embedding. -/
structure Interference where
  /-- The record as found by each further evaluation of the admission
  predicate (after a notification, a spurious wake-up, or the timeout of
  `CONSENSUS_MSG_ORDER_BLOCK_WINDOW` seconds, which is the last entry). -/
  reevaluations : List DirectoryService
  /-- The record as found when the wait on `cv_DSBlockConsensusObject`
  (line 455) ends; `none` when nothing was changed meanwhile. -/
  afterObjectWait : Option DirectoryService
  /-- Whether the wait on `cv_scheduleFinalBlockConsensus` (line 378) ended by
  timeout. -/
  shardingTimedOut : Bool

/-- The admission predicate, the lambda of lines 414-433. -/
def admissionPredicate (E : Env) (message : Bytes) (offset : Nat) (ds : DirectoryService) :
    Bool :=
  if ds.m_syncType ≠ SyncType.NO_SYNC then false
  else
    match ds.m_consensusObject with
    | none => false
    | some consensusObject => E.CanProcessMessage consensusObject message offset

/-- The call `cv_processConsensusMessage.wait_for(lock, window, pred)` of
line 412: the predicate is evaluated on arrival and again at every wake-up
until it holds or the window has passed. The result is the record on which
the predicate held, or `none` when it held at no evaluation. -/
def waitForCorrectOrder (E : Env) (message : Bytes) (offset : Nat) (ds : DirectoryService)
    (reevaluations : List DirectoryService) : Option DirectoryService :=
  (ds :: reevaluations).find? (admissionPredicate E message offset)

/-- What a call of `ProcessDSBlockConsensus` did. -/
structure Handled where
  /-- The value returned. -/
  result : Bool
  /-- Whether `m_consensusObject->ProcessMessage` (line 476) was called. -/
  applied : Bool
  /-- The record left behind, and the fault if the call ended by one. -/
  outcome : Outcome

/-- `ProcessDSBlockConsensus` (lines 400-513), the build without
`IS_LOOKUP_NODE`. -/
def ProcessDSBlockConsensus (E : Env) (I : Interference) (ds : DirectoryService)
    (message : Bytes) (offset : Nat) (sender : Peer) : Handled :=
  -- lines 411-444
  match waitForCorrectOrder E message offset ds I.reevaluations with
  | none =>
    { result := false, applied := false
      outcome := { fault := none, state := (ds :: I.reevaluations).getLastD ds } }
  | some ds =>
    -- lines 449-467
    let ds :=
      if ds.m_state = DirState.POW1_SUBMISSION ∨ ds.m_state = DirState.DSBLOCK_CONSENSUS_PREP
      then I.afterObjectWait.getD ds else ds
    -- lines 469-474
    if ¬ E.CheckState ds.m_mode ds.m_state then
      { result := false, applied := false, outcome := { fault := none, state := ds } }
    else
      -- lines 476-477
      match ds.m_consensusObject with
      | none =>
        { result := false, applied := false
          outcome := { fault := some Fault.nullConsensusObject, state := ds } }
      | some consensusObject =>
        let processed := E.ProcessMessage consensusObject message offset sender
        let ds := { ds with m_consensusObject := some processed.2 }
        match processed.2.state with
        | ConsensusState.DONE =>
          let ds := { ds with m_viewChangeCounter := 0 }
          { result := processed.1, applied := true
            outcome := ProcessDSBlockConsensusWhenDone E I.shardingTimedOut ds message offset }
        | ConsensusState.ERROR =>
          { result := processed.1, applied := true, outcome := { fault := none, state := ds } }
        | ConsensusState.ACTIVE =>
          { result := processed.1, applied := true, outcome := { fault := none, state := ds } }

/-! ## What finalization commits -/

/-- The part of the record that is written when the block is stored (the
chain, the latest active block number, the storage) together with the
consensus object; the steps after line 307 leave it alone. -/
def DirectoryService.committed (ds : DirectoryService) :
    DSBlockChain × Nat × BlockStorage × Option ConsensusObject :=
  (ds.m_dsBlockChain, ds.m_latestActiveDSBlockNum, ds.storage, ds.m_consensusObject)

/-- The committee, the candidate pool and the self identity (mode and
consensus index). -/
def DirectoryService.membership (ds : DirectoryService) :
    List (PubKey × Peer) × List (PubKey × Peer) × Mode × Nat :=
  (ds.m_DSCommittee, ds.m_allPoWConns, ds.m_mode, ds.m_consensusMyID)

/-! ## The cluster plan in the words of the specification -/

/-- Division rounded up. -/
def ceilDiv (a b : Nat) : Nat := (a + b - 1) / b

/-- The number of committee clusters: the committee divided into clusters of
`clusterCapacity` members, the last one possibly short. -/
def clusterCount (committeeSize clusterCapacity : Nat) : Nat :=
  ceilDiv committeeSize clusterCapacity

/-- The size of a candidate cluster: the pool divided into as many clusters as
there are committee clusters, rounded up. -/
def poolClusterSize (committeeSize candidatePoolSize clusterCapacity : Nat) : Nat :=
  ceilDiv candidatePoolSize (clusterCount committeeSize clusterCapacity)

/-! ## Concrete configurations and records -/

/-- A configuration for the concrete runs: 32-bit consensus index, clusters
of 20, a chain that takes a block when its number is above the last one, and
a toy consensus protocol driven by the second byte of a message. -/
def sampleEnv : Env where
  idBits := 32
  DS_MULTICAST_CLUSTER_SIZE := 20
  COMM_SIZE := 20
  TX_SHARING_CLUSTER_SIZE := 10
  TEST_NET_MODE := false
  NODE := 2
  DSBLOCK := 2
  Serialize := fun block dst offset =>
    copyAt (dst ++ List.replicate (offset + 2 - dst.length) 0) offset
      [block.header.blockNum % 256, block.cosigs.CS1 % 256]
  accepts := fun chain block =>
    decide (chain.GetLastBlock.header.blockNum < block.header.blockNum)
  dsBlockRandOf := fun chain =>
    List.replicate BLOCK_HASH_SIZE (chain.GetLastBlock.header.blockNum % 256)
  CanProcessMessage := fun consensusObject message _ =>
    decide (message.head? = some consensusObject.internal)
  ProcessMessage := fun consensusObject message _ _ =>
    match message with
    | [_, 1] => (true, { consensusObject with state := ConsensusState.DONE })
    | [_, 2] => (false, { consensusObject with state := ConsensusState.ERROR })
    | _ => (true, { consensusObject with internal := consensusObject.internal + 1 })
  CheckState := fun mode state =>
    decide (mode ≠ Mode.IDLE ∧ state = DirState.DSBLOCK_CONSENSUS)

/-- A committee member or candidate. -/
def peerA : PubKey × Peer := (⟨1⟩, ⟨10, 1001⟩)

/-- A second committee member or candidate. -/
def peerB : PubKey × Peer := (⟨2⟩, ⟨20, 1002⟩)

/-- A third committee member or candidate. -/
def peerC : PubKey × Peer := (⟨3⟩, ⟨30, 1003⟩)

/-- A block without co-signatures, with the given number and miner. -/
def blockMinedBy (blockNum : Nat) (miner : PubKey) : DSBlock :=
  { header :=
      { blockNum := blockNum, nonce := 0, difficulty := 0, timestamp := 0, minerPubKey := miner }
    cosigs := { CS1 := 0, B1 := [], CS2 := 0, B2 := [] } }

/-- A backup at index 1 of the committee `[peerA, peerB]`, with `peerC` in the
candidate pool, an empty chain and nothing pending. -/
def baseDS : DirectoryService where
  m_mode := Mode.BACKUP_DS
  m_state := DirState.DSBLOCK_CONSENSUS
  m_consensusMyID := 1
  m_DSCommittee := [peerA, peerB]
  m_allPoWConns := [peerC]
  m_allPoW2s := []
  m_sortedPoW2s := []
  m_viewChangeCounter := 0
  m_pendingDSBlock := none
  m_DSBlockConsensusRawMessage := []
  m_consensusObject := none
  m_latestActiveDSBlockNum := 0
  m_dsBlockChain := []
  m_dsBlockRand := List.replicate 32 0
  m_syncType := SyncType.NO_SYNC
  nodeState := NodeState.OTHER
  storage := { dsBlocks := [], txBodyDBs := [], metadata := [] }
  lookupSent := []
  broadcastSent := []
  whitelistUpdates := 0
  finalBlockConsensusRuns := 0

/-- The last block was mined by `peerB`, who is also the last committee
member. -/
def rejoined : DirectoryService :=
  { baseDS with m_dsBlockChain := [blockMinedBy 1 peerB.1] }

/-- The last committee member also sits one rank higher; the last block was
mined by `peerC`. -/
def repeated : DirectoryService :=
  { baseDS with m_DSCommittee := [peerA, peerB, peerB]
                m_dsBlockChain := [blockMinedBy 1 peerC.1] }

/-- The last block was mined by `peerC`, who is not in the committee. -/
def freshWinner : DirectoryService :=
  { baseDS with m_dsBlockChain := [blockMinedBy 1 peerC.1] }

/-- An idle node with index 0 and a committee of three. -/
def idleAtFront : DirectoryService :=
  { baseDS with m_mode := Mode.IDLE, m_consensusMyID := 0
                m_DSCommittee := [peerA, peerB, peerC] }

/-- A primary whose index is the largest 32-bit value. -/
def primaryAtMaxID : DirectoryService :=
  { baseDS with m_mode := Mode.PRIMARY_DS, m_consensusMyID := 4294967295 }

/-- A backup at index 19 of a committee of 20. -/
def backupAt19 : DirectoryService :=
  { baseDS with m_mode := Mode.BACKUP_DS, m_consensusMyID := 19
                m_DSCommittee := List.replicate 20 peerA }

/-- A committee whose only member is this node, the primary at index 0; the
last block was mined by `peerC`. -/
def soleMember : DirectoryService :=
  { baseDS with m_mode := Mode.PRIMARY_DS, m_consensusMyID := 0, m_DSCommittee := [peerA]
                m_dsBlockChain := [blockMinedBy 1 peerC.1] }

/-- A consensus object that has reached `DONE` with some co-signatures. -/
def doneObject : ConsensusObject :=
  { state := ConsensusState.DONE
    cosigs := { CS1 := 77, B1 := [true, true], CS2 := 78, B2 := [true, false] }
    internal := 7 }

/-- A finished round: block 1 mined by `peerC` is pending, `peerC` is in the
pool, the chain is empty. -/
def pendingRound : DirectoryService :=
  { baseDS with m_pendingDSBlock := some (blockMinedBy 1 peerC.1)
                m_consensusObject := some doneObject
                m_DSBlockConsensusRawMessage := [0, 0, 5, 6] }

/-- A finished round whose pending block 3 is older than the last block 5 of
the chain (mined by `peerA`, who is in the pool). -/
def staleRound : DirectoryService :=
  { pendingRound with m_pendingDSBlock := some (blockMinedBy 3 peerC.1)
                      m_dsBlockChain := [blockMinedBy 5 peerA.1]
                      m_allPoWConns := [peerA, peerC] }

/-- The consensus object of `runningRound` after it failed. -/
def errorObject : ConsensusObject :=
  { state := ConsensusState.ERROR, cosigs := doneObject.cosigs, internal := 7 }

/-- A round in progress after three failed rounds. -/
def runningRound : DirectoryService :=
  { baseDS with m_consensusObject :=
                  some { state := ConsensusState.ACTIVE, cosigs := doneObject.cosigs, internal := 7 }
                m_viewChangeCounter := 3 }

/-- No other thread changes anything. -/
def quiet : Interference :=
  { reevaluations := [], afterObjectWait := none, shardingTimedOut := false }

/-- A committee of 80 distinct members. -/
def committeeOf80 : List (PubKey × Peer) :=
  (List.range 80).map (fun i => (⟨100 + i⟩, ⟨i, 2000 + i⟩))

/-- A pool of five distinct candidates. -/
def poolOf5 : List (PubKey × Peer) :=
  [peerA, peerB, peerC, (⟨4⟩, ⟨40, 1004⟩), (⟨5⟩, ⟨50, 1005⟩)]

/-- A backup at index 60 of a committee of 80 (4 clusters of 20), with five
candidates in the pool. -/
def fewCandidates : DirectoryService :=
  { baseDS with m_consensusMyID := 60, m_DSCommittee := committeeOf80
                m_allPoWConns := poolOf5 }

/-- A backup at index 40 of a committee of 60 (3 clusters of 20), with four
candidates in the pool. -/
def fourCandidates : DirectoryService :=
  { baseDS with m_consensusMyID := 40, m_DSCommittee := committeeOf80.take 60
                m_allPoWConns := poolOf5.take 4 }

/-- A backup at index 40 of a committee of 45 (3 clusters), with a pool of 100
candidates. -/
def manyCandidates : DirectoryService :=
  { baseDS with m_consensusMyID := 40, m_DSCommittee := committeeOf80.take 45
                m_allPoWConns := (List.range 100).map (fun i => (⟨500 + i⟩, ⟨i, 3000 + i⟩)) }

/-- The configuration `sampleEnv` with a 16-bit consensus index. -/
def sixteenBitEnv : Env := { sampleEnv with idBits := 16 }

/-- A committee of `n` distinct members, with keys from 100 on. It is never
evaluated: what is needed of it is proved for every `n`. -/
@[irreducible]
def committeeOfSize (n : Nat) : List (PubKey × Peer) :=
  (List.range n).map (fun i => (⟨100 + i⟩, ⟨i, 2000 + i⟩))

/-- A backup at index 65535 of a committee of 65537 distinct members; the
last block was mined by `peerC`, who is not in the committee. -/
def backupAt65535 : DirectoryService :=
  { baseDS with m_consensusMyID := 65535, m_DSCommittee := committeeOfSize 65537
                m_dsBlockChain := [blockMinedBy 1 peerC.1] }

/-- The primary at index 0 of the committee `[peerA, peerB]`; the last block
was mined by `peerC`. -/
def primaryOfTwo : DirectoryService :=
  { baseDS with m_mode := Mode.PRIMARY_DS, m_consensusMyID := 0
                m_dsBlockChain := [blockMinedBy 1 peerC.1] }

/-! ## Committee rotation -/

/-- Pushing at the front of a non-empty deque and popping the back keeps the
pushed element and drops the old last one. -/
theorem dropLast_push_front {α : Type} (w : α) (c : List α) (h : c ≠ []) :
    (w :: c).dropLast = w :: c.dropLast := by
  cases c with
  | nil => exact absurd rfl h
  | cons a t => rfl

/-- C1 (amended): for every committee of size at least 1 and every winner,
after `UpdateDSCommiteeComposition` the committee has the size it had and the
pair (miner key of the last block, winner peer) is at rank 0; the member `m`
that was at the last rank is absent, provided `m` did not also sit at an
earlier rank and is not the winner pair itself. -/
theorem rotateIn_evicts_last (ds : DirectoryService) (winnerpeer : Peer)
    (hN : 1 ≤ ds.m_DSCommittee.length) :
    (UpdateDSCommiteeComposition ds winnerpeer).m_DSCommittee.length
        = ds.m_DSCommittee.length
    ∧ (UpdateDSCommiteeComposition ds winnerpeer).m_DSCommittee[0]?
        = some (ds.m_dsBlockChain.GetLastBlock.header.minerPubKey, winnerpeer)
    ∧ ∀ m, ds.m_DSCommittee.getLast? = some m →
        m ∉ ds.m_DSCommittee.dropLast →
        m ≠ (ds.m_dsBlockChain.GetLastBlock.header.minerPubKey, winnerpeer) →
        m ∉ (UpdateDSCommiteeComposition ds winnerpeer).m_DSCommittee := by
  have hne : ds.m_DSCommittee ≠ [] := List.length_pos.mp (by omega)
  simp only [UpdateDSCommiteeComposition]
  rw [dropLast_push_front _ _ hne]
  refine ⟨?_, ?_, ?_⟩
  · simp only [List.length_cons, List.length_dropLast]
    omega
  · simp
  · intro m _ hearlier hwinner
    simp only [List.mem_cons, not_or]
    exact ⟨hwinner, hearlier⟩

/-- C1, runs of the amended statement. Size and winner at rank 0 hold also
where the last member stays (`repeated`, `rejoined`); in `freshWinner`,
`peerC` wins and `peerB`, the last of `[peerA, peerB]`, is gone. -/
theorem rotateIn_evicts_last_witness :
    (1 ≤ repeated.m_DSCommittee.length
      ∧ (UpdateDSCommiteeComposition repeated peerC.2).m_DSCommittee.length
          = repeated.m_DSCommittee.length
      ∧ (UpdateDSCommiteeComposition repeated peerC.2).m_DSCommittee[0]?
          = some (repeated.m_dsBlockChain.GetLastBlock.header.minerPubKey, peerC.2))
    ∧ (1 ≤ rejoined.m_DSCommittee.length
      ∧ (UpdateDSCommiteeComposition rejoined peerB.2).m_DSCommittee.length
          = rejoined.m_DSCommittee.length
      ∧ (UpdateDSCommiteeComposition rejoined peerB.2).m_DSCommittee[0]?
          = some (rejoined.m_dsBlockChain.GetLastBlock.header.minerPubKey, peerB.2))
    ∧ (1 ≤ freshWinner.m_DSCommittee.length
      ∧ freshWinner.m_DSCommittee.getLast? = some peerB
      ∧ (UpdateDSCommiteeComposition freshWinner peerC.2).m_DSCommittee.length
          = freshWinner.m_DSCommittee.length
      ∧ (UpdateDSCommiteeComposition freshWinner peerC.2).m_DSCommittee[0]?
          = some (freshWinner.m_dsBlockChain.GetLastBlock.header.minerPubKey, peerC.2)
      ∧ peerB ∉ (UpdateDSCommiteeComposition freshWinner peerC.2).m_DSCommittee) :=
  ⟨⟨by decide,
      (rotateIn_evicts_last repeated peerC.2 (by decide)).1,
      (rotateIn_evicts_last repeated peerC.2 (by decide)).2.1⟩,
    ⟨by decide,
      (rotateIn_evicts_last rejoined peerB.2 (by decide)).1,
      (rotateIn_evicts_last rejoined peerB.2 (by decide)).2.1⟩,
    ⟨by decide, by decide,
      (rotateIn_evicts_last freshWinner peerC.2 (by decide)).1,
      (rotateIn_evicts_last freshWinner peerC.2 (by decide)).2.1,
      (rotateIn_evicts_last freshWinner peerC.2 (by decide)).2.2 peerB
        (by decide) (by decide) (by decide)⟩⟩

/-- C1 as stated fails: the member at the last rank is still in the committee
after the rotation when it is the winner itself (`rejoined`), and when it also
sat at an earlier rank (`repeated`). -/
theorem rotateIn_last_member_can_remain :
    (1 ≤ rejoined.m_DSCommittee.length
      ∧ rejoined.m_DSCommittee.getLast? = some peerB
      ∧ peerB ∈ (UpdateDSCommiteeComposition rejoined peerB.2).m_DSCommittee)
    ∧ (1 ≤ repeated.m_DSCommittee.length
      ∧ repeated.m_DSCommittee.getLast? = some peerB
      ∧ peerB ∈ (UpdateDSCommiteeComposition repeated peerC.2).m_DSCommittee) := by
  decide

/-! ## Role update -/

/-- An index that fits the member `m_consensusMyID` of at most 32 bits is left
alone by the conversion to `uint32_t`. -/
theorem uint_of_id (E : Env) (n : Nat) (hbits : E.idBits ≤ 32) (hfit : n < 2 ^ E.idBits) :
    n % UINT_MOD = n := by
  apply Nat.mod_eq_of_lt
  have : 2 ^ E.idBits ≤ 2 ^ 32 := Nat.pow_le_pow_right (by decide) hbits
  unfold UINT_MOD
  omega

/-- C2 (amended): while `index + 1` does not wrap (the index member has at
most 32 bits and `index + 1` fits in it), `UpdateMyDSModeAndConsensusId`
turns a primary into a backup with `index + 1`; turns a non-primary with
`index + 1 = committee size` into an idle node, index unchanged; and in every
other case leaves the mode as it was (a backup stays a backup) with
`index + 1`. -/
theorem advance_role_rules (E : Env) (ds : DirectoryService) (hbits : E.idBits ≤ 32)
    (hfit : ds.m_consensusMyID + 1 < 2 ^ E.idBits) :
    (ds.m_mode = Mode.PRIMARY_DS →
        (UpdateMyDSModeAndConsensusId E ds).m_mode = Mode.BACKUP_DS
        ∧ (UpdateMyDSModeAndConsensusId E ds).m_consensusMyID = ds.m_consensusMyID + 1)
    ∧ (ds.m_mode ≠ Mode.PRIMARY_DS → ds.m_consensusMyID + 1 = ds.m_DSCommittee.length →
        (UpdateMyDSModeAndConsensusId E ds).m_mode = Mode.IDLE
        ∧ (UpdateMyDSModeAndConsensusId E ds).m_consensusMyID = ds.m_consensusMyID)
    ∧ (ds.m_mode ≠ Mode.PRIMARY_DS → ds.m_consensusMyID + 1 ≠ ds.m_DSCommittee.length →
        (UpdateMyDSModeAndConsensusId E ds).m_mode = ds.m_mode
        ∧ (UpdateMyDSModeAndConsensusId E ds).m_consensusMyID = ds.m_consensusMyID + 1) := by
  have h32 := uint_of_id E _ hbits hfit
  have hw := Nat.mod_eq_of_lt hfit
  refine ⟨?_, ?_, ?_⟩
  · intro hp
    unfold UpdateMyDSModeAndConsensusId
    rw [if_pos hp, hw]
    exact ⟨rfl, rfl⟩
  · intro hp hlast
    unfold UpdateMyDSModeAndConsensusId
    rw [if_neg hp, h32, if_pos hlast]
    exact ⟨rfl, rfl⟩
  · intro hp hlast
    unfold UpdateMyDSModeAndConsensusId
    rw [if_neg hp, h32, if_neg hlast, hw]
    exact ⟨rfl, rfl⟩

/-- C2, the scenario of the specification: a backup at index 19 of a committee
of 20 becomes idle. -/
theorem advance_role_rules_witness :
    sampleEnv.idBits ≤ 32 ∧ backupAt19.m_consensusMyID + 1 < 2 ^ sampleEnv.idBits
    ∧ backupAt19.m_mode = Mode.BACKUP_DS
    ∧ backupAt19.m_consensusMyID + 1 = backupAt19.m_DSCommittee.length
    ∧ (UpdateMyDSModeAndConsensusId sampleEnv backupAt19).m_mode = Mode.IDLE :=
  ⟨by decide, by decide, by decide, by decide,
    ((advance_role_rules sampleEnv backupAt19 (by decide) (by decide)).2.1
      (by decide) (by decide)).1⟩

/-- C2 as stated fails: an idle node whose `index + 1` is not the committee
size stays idle instead of becoming a backup, and a primary whose index is the
largest value of the index type gets index 0, not `index + 1`. -/
theorem advance_idle_stays_idle :
    (idleAtFront.m_mode ≠ Mode.PRIMARY_DS
      ∧ idleAtFront.m_consensusMyID + 1 ≠ idleAtFront.m_DSCommittee.length
      ∧ (UpdateMyDSModeAndConsensusId sampleEnv idleAtFront).m_mode = Mode.IDLE
      ∧ (UpdateMyDSModeAndConsensusId sampleEnv idleAtFront).m_mode ≠ Mode.BACKUP_DS)
    ∧ (primaryAtMaxID.m_mode = Mode.PRIMARY_DS
      ∧ (UpdateMyDSModeAndConsensusId sampleEnv primaryAtMaxID).m_consensusMyID = 0
      ∧ (UpdateMyDSModeAndConsensusId sampleEnv primaryAtMaxID).m_consensusMyID
          ≠ primaryAtMaxID.m_consensusMyID + 1) := by
  decide

/-! ## The cluster plan -/

/-- Rounding a quotient up when there is a remainder is division rounded
up. -/
theorem roundUp_eq_ceilDiv (a b : Nat) (hb : 1 ≤ b) :
    (if a % b > 0 then a / b + 1 else a / b) = ceilDiv a b := by
  unfold ceilDiv
  have hdm := Nat.div_add_mod a b
  have hlt := Nat.mod_lt a (show b > 0 by omega)
  have hc : (a / b) * b = b * (a / b) := Nat.mul_comm _ _
  have h1 : (a / b + 1) * b = b * (a / b) + b := by ring
  have h2 : (a / b + 1 + 1) * b = b * (a / b) + b + b := by ring
  split
  · symm
    apply Nat.div_eq_of_lt_le <;> omega
  · symm
    apply Nat.div_eq_of_lt_le <;> omega

/-- Division rounded up does not exceed the dividend. -/
theorem ceilDiv_le_self (a b : Nat) (hb : 1 ≤ b) : ceilDiv a b ≤ a := by
  unfold ceilDiv
  have : a + b - 1 < b * (a + 1) := by
    have : b * (a + 1) = b * a + b := by ring
    have : a ≤ b * a := Nat.le_mul_of_pos_left a (by omega)
    omega
  have := (Nat.div_lt_iff_lt_mul (show 0 < b by omega)).mpr (by rw [Nat.mul_comm]; exact this)
  omega

/-- Division rounded up of a positive number is positive. -/
theorem ceilDiv_pos (a b : Nat) (ha : 1 ≤ a) (hb : 1 ≤ b) : 1 ≤ ceilDiv a b := by
  unfold ceilDiv
  exact (Nat.one_le_div_iff (by omega)).mpr (by omega)

/-- The clusters of rounded-up size reach the whole and overshoot it by less
than their number. -/
theorem mul_ceilDiv_bounds (a b : Nat) (hb : 1 ≤ b) :
    a ≤ b * ceilDiv a b ∧ b * ceilDiv a b ≤ a + b - 1 := by
  unfold ceilDiv
  have hdm := Nat.div_add_mod (a + b - 1) b
  have hlt := Nat.mod_lt (a + b - 1) (show b > 0 by omega)
  constructor <;> omega

/-- The rounding of lines 126-138 in `unsigned int` is division rounded up
when the result fits. -/
theorem roundUp_uint (a b : Nat) (hb : 1 ≤ b) (ha : ceilDiv a b < UINT_MOD) :
    (if a % b > 0 then ((a / b) % UINT_MOD + 1) % UINT_MOD else (a / b) % UINT_MOD)
      = ceilDiv a b := by
  have h := roundUp_eq_ceilDiv a b hb
  have hle : a / b ≤ ceilDiv a b := by
    rw [← h]; split <;> omega
  have h0 : (a / b) % UINT_MOD = a / b := Nat.mod_eq_of_lt (by omega)
  rw [h0]
  split
  · next hpos =>
    rw [if_pos hpos] at h
    rw [h]
    exact Nat.mod_eq_of_lt ha
  · next hpos =>
    rw [if_neg hpos] at h
    exact h

/-- Without wrap-around `DetermineNodesToSendDSBlockTo` computes the plan of
the specification. -/
theorem plan_no_wrap (committeeSize powSize consensusMyID clusterSize : Nat)
    (hcap : 1 ≤ clusterSize) (hC : 1 ≤ committeeSize) (hC32 : committeeSize < 2 ^ 32)
    (hP : 1 ≤ powSize) (hP32 : powSize < 2 ^ 32)
    (hfit : (consensusMyID / clusterSize + 1)
      * poolClusterSize committeeSize powSize clusterSize ≤ 2 ^ 32) :
    DetermineNodesToSendDSBlockTo committeeSize powSize consensusMyID clusterSize
      = some (consensusMyID / clusterSize,
          consensusMyID / clusterSize * poolClusterSize committeeSize powSize clusterSize,
          min (consensusMyID / clusterSize * poolClusterSize committeeSize powSize clusterSize
                + poolClusterSize committeeSize powSize clusterSize - 1)
              (powSize - 1)) := by
  have hM : UINT_MOD = 2 ^ 32 := rfl
  have hS : SIZE_MOD = 2 ^ 64 := rfl
  have hn1 : 1 ≤ clusterCount committeeSize clusterSize := ceilDiv_pos _ _ hC hcap
  have hn2 : clusterCount committeeSize clusterSize ≤ committeeSize := ceilDiv_le_self _ _ hcap
  have hs1 : 1 ≤ poolClusterSize committeeSize powSize clusterSize := ceilDiv_pos _ _ hP hn1
  have hs2 : poolClusterSize committeeSize powSize clusterSize ≤ powSize :=
    ceilDiv_le_self _ _ hn1
  have hn := roundUp_uint committeeSize clusterSize hcap
    (by show clusterCount committeeSize clusterSize < UINT_MOD; omega)
  have hs := roundUp_uint powSize (clusterCount committeeSize clusterSize) hn1
    (by show poolClusterSize committeeSize powSize clusterSize < UINT_MOD; omega)
  change _ = clusterCount committeeSize clusterSize at hn
  change _ = poolClusterSize committeeSize powSize clusterSize at hs
  unfold DetermineNodesToSendDSBlockTo
  simp only []
  rw [if_neg (by omega), hn, if_neg (by omega), hs]
  clear hn hs
  generalize poolClusterSize committeeSize powSize clusterSize = s at *
  generalize consensusMyID / clusterSize = k at *
  have hks : (k + 1) * s = k * s + s := by ring
  have hk : k < 2 ^ 32 := by
    have : k + 1 ≤ (k + 1) * s := Nat.le_mul_of_pos_right _ (by omega)
    omega
  rw [hM, hS, Nat.mod_eq_of_lt hk]
  generalize k * s = lo at *
  rw [Nat.mod_eq_of_lt (show lo < 2 ^ 32 by omega)]
  have hhi : (lo + s + 2 ^ 32 - 1) % 2 ^ 32 = lo + s - 1 := by omega
  have hclamp : ((powSize + 2 ^ 64 - 1) % 2 ^ 64) % 2 ^ 32 = powSize - 1 := by omega
  rw [hhi, hclamp]
  split
  · rw [Nat.min_eq_right (by omega)]
  · rw [Nat.min_eq_left (by omega)]

/-- C3 (amended): for a committee of at least one member, a cluster capacity
of at least one and a candidate pool of at least one node, all below `2 ^ 32`
and with `clusterCount * poolClusterSize ≤ 2 ^ 32` (nothing wraps in
`unsigned int`; this holds whenever committee size plus pool size is at most
`2 ^ 32`), every index of the pool lies in the range computed for some
cluster index below `clusterCount` (reached from a consensus index inside the
committee), and the upper bound computed for the last cluster index is at
most `candidatePoolSize - 1`. -/
theorem cluster_ranges_cover_pool (committeeSize powSize clusterSize : Nat)
    (hC : 1 ≤ committeeSize) (hcap : 1 ≤ clusterSize) (hP : 1 ≤ powSize)
    (hC32 : committeeSize < 2 ^ 32) (hP32 : powSize < 2 ^ 32)
    (hfit : clusterCount committeeSize clusterSize
      * poolClusterSize committeeSize powSize clusterSize ≤ 2 ^ 32) :
    (∀ i, i < powSize → ∃ consensusMyID lo hi,
        consensusMyID < committeeSize
        ∧ consensusMyID / clusterSize < clusterCount committeeSize clusterSize
        ∧ DetermineNodesToSendDSBlockTo committeeSize powSize consensusMyID clusterSize
            = some (consensusMyID / clusterSize, lo, hi)
        ∧ lo ≤ i ∧ i ≤ hi)
    ∧ (∀ consensusMyID,
        consensusMyID / clusterSize + 1 = clusterCount committeeSize clusterSize →
        ∃ lo hi,
          DetermineNodesToSendDSBlockTo committeeSize powSize consensusMyID clusterSize
            = some (consensusMyID / clusterSize, lo, hi)
          ∧ (hi : Int) ≤ (powSize : Int) - 1) := by
  have hn1 : 1 ≤ clusterCount committeeSize clusterSize := ceilDiv_pos _ _ hC hcap
  have hs1 : 1 ≤ poolClusterSize committeeSize powSize clusterSize := ceilDiv_pos _ _ hP hn1
  have hnb : committeeSize ≤ clusterSize * clusterCount committeeSize clusterSize
      ∧ clusterSize * clusterCount committeeSize clusterSize ≤ committeeSize + clusterSize - 1 :=
    mul_ceilDiv_bounds committeeSize clusterSize hcap
  have hsb : powSize ≤ clusterCount committeeSize clusterSize
        * poolClusterSize committeeSize powSize clusterSize
      ∧ clusterCount committeeSize clusterSize
        * poolClusterSize committeeSize powSize clusterSize
          ≤ powSize + clusterCount committeeSize clusterSize - 1 :=
    mul_ceilDiv_bounds powSize (clusterCount committeeSize clusterSize) hn1
  have hplan := fun consensusMyID =>
    plan_no_wrap committeeSize powSize consensusMyID clusterSize hcap hC hC32 hP hP32
  generalize poolClusterSize committeeSize powSize clusterSize = s at *
  generalize clusterCount committeeSize clusterSize = n at *
  constructor
  · intro i hi
    have hk : i / s < n := (Nat.div_lt_iff_lt_mul (by omega)).mpr (by omega)
    have hq : i / s * clusterSize / clusterSize = i / s := Nat.mul_div_cancel _ (by omega)
    have hdm := Nat.div_add_mod i s
    have hml := Nat.mod_lt i (show s > 0 by omega)
    have hstep : (i / s + 1) * s ≤ n * s := Nat.mul_le_mul_right _ hk
    have hexp : (i / s + 1) * s = s * (i / s) + s := by ring
    have hcomm : i / s * s = s * (i / s) := Nat.mul_comm _ _
    have h1 : (i / s + 1) * clusterSize ≤ n * clusterSize := Nat.mul_le_mul_right _ hk
    have h2 : (i / s + 1) * clusterSize = i / s * clusterSize + clusterSize := by ring
    have h3 : n * clusterSize = clusterSize * n := Nat.mul_comm _ _
    refine ⟨i / s * clusterSize, i / s * s, min (i / s * s + s - 1) (powSize - 1),
      by omega, by rw [hq]; exact hk, ?_, by omega, ?_⟩
    · have := hplan (i / s * clusterSize) (by rw [hq]; omega)
      rw [hq] at this
      rw [hq]
      exact this
    · exact Nat.le_min.mpr ⟨by omega, by omega⟩
  · intro consensusMyID hlast
    refine ⟨_, _, hplan consensusMyID (by rw [hlast]; omega), ?_⟩
    have := Nat.min_le_right (consensusMyID / clusterSize * s + s - 1) (powSize - 1)
    omega

/-- C3, a run of the amended statement: committee 45, capacity 20 and pool
100, the second scenario of the specification. -/
theorem cluster_ranges_cover_pool_witness :
    (clusterCount 45 20 * poolClusterSize 45 100 20 ≤ 2 ^ 32)
    ∧ (∀ i, i < 100 → ∃ consensusMyID lo hi,
        consensusMyID < 45
        ∧ consensusMyID / 20 < clusterCount 45 20
        ∧ DetermineNodesToSendDSBlockTo 45 100 consensusMyID 20
            = some (consensusMyID / 20, lo, hi)
        ∧ lo ≤ i ∧ i ≤ hi)
    ∧ (∀ consensusMyID, consensusMyID / 20 + 1 = clusterCount 45 20 →
        ∃ lo hi,
          DetermineNodesToSendDSBlockTo 45 100 consensusMyID 20
            = some (consensusMyID / 20, lo, hi)
          ∧ (hi : Int) ≤ ((100 : Nat) : Int) - 1) :=
  ⟨by decide,
    cluster_ranges_cover_pool 45 100 20 (by decide) (by decide) (by decide) (by decide)
      (by decide) (by decide)⟩

/-- C3 as stated fails. With an empty pool the upper bound computed for the
only cluster is `4294967295`, which exceeds `candidatePoolSize - 1`. With a
committee of 7 (capacity 1, so 7 clusters) and a pool of `4294967294` nodes
the upper bound of the last cluster wraps to 2, and index `4294967293` of the
pool lies in the range of no cluster index. -/
theorem cluster_ranges_wrap_gap :
    (DetermineNodesToSendDSBlockTo 1 0 0 1 = some (0, 0, 4294967295)
      ∧ ¬ ((4294967295 : Int) ≤ ((0 : Nat) : Int) - 1))
    ∧ (clusterCount 7 1 = 7
      ∧ (4294967293 : Nat) < 4294967294
      ∧ ∀ k, k < 7 → ∃ lo hi,
          DetermineNodesToSendDSBlockTo 7 4294967294 k 1 = some (k, lo, hi)
          ∧ ¬ (lo ≤ 4294967293 ∧ 4294967293 ≤ hi)) := by
  refine ⟨⟨by decide, by decide⟩, by decide, by decide, ?_⟩
  intro k hk
  interval_cases k <;> exact ⟨_, _, rfl, by decide⟩

/-- C4 (amended): for committee size, cluster capacity and pool size of at
least one, committee and pool below `2 ^ 32`, and a consensus index whose
cluster satisfies `(clusterIndex + 1) * poolClusterSize ≤ 2 ^ 32` (nothing
wraps in `unsigned int`), `DetermineNodesToSendDSBlockTo` returns
`clusterIndex = selfIndex / clusterCapacity`,
`rangeLo = clusterIndex * poolClusterSize` and
`rangeHi = min (rangeLo + poolClusterSize - 1) (candidatePoolSize - 1)`. -/
theorem cluster_plan_formula (committeeSize powSize consensusMyID clusterSize : Nat)
    (hC : 1 ≤ committeeSize) (hcap : 1 ≤ clusterSize) (hP : 1 ≤ powSize)
    (hC32 : committeeSize < 2 ^ 32) (hP32 : powSize < 2 ^ 32)
    (hfit : (consensusMyID / clusterSize + 1)
      * poolClusterSize committeeSize powSize clusterSize ≤ 2 ^ 32) :
    DetermineNodesToSendDSBlockTo committeeSize powSize consensusMyID clusterSize
      = some (consensusMyID / clusterSize,
          consensusMyID / clusterSize * poolClusterSize committeeSize powSize clusterSize,
          min (consensusMyID / clusterSize * poolClusterSize committeeSize powSize clusterSize
                + poolClusterSize committeeSize powSize clusterSize - 1)
              (powSize - 1)) :=
  plan_no_wrap committeeSize powSize consensusMyID clusterSize hcap hC hC32 hP hP32 hfit

/-- C4, the scenarios of the specification: committee 45, capacity 20, pool
100 gives 3 clusters with ranges [0,33], [34,67], [68,99]; committee 20,
capacity 20, pool 45 gives 1 cluster with range [0,44]. -/
theorem cluster_plan_scenarios :
    (clusterCount 45 20 = 3 ∧ poolClusterSize 45 100 20 = 34)
    ∧ DetermineNodesToSendDSBlockTo 45 100 0 20 = some (0, 0, 33)
    ∧ DetermineNodesToSendDSBlockTo 45 100 20 20 = some (1, 34, 67)
    ∧ DetermineNodesToSendDSBlockTo 45 100 40 20 = some (2, 68, 99)
    ∧ (clusterCount 20 20 = 1 ∧ poolClusterSize 20 45 20 = 45)
    ∧ DetermineNodesToSendDSBlockTo 20 45 0 20 = some (0, 0, 44) :=
  ⟨by decide,
    cluster_plan_formula 45 100 0 20 (by decide) (by decide) (by decide) (by decide)
      (by decide) (by decide),
    cluster_plan_formula 45 100 20 20 (by decide) (by decide) (by decide) (by decide)
      (by decide) (by decide),
    cluster_plan_formula 45 100 40 20 (by decide) (by decide) (by decide) (by decide)
      (by decide) (by decide),
    by decide,
    cluster_plan_formula 20 45 0 20 (by decide) (by decide) (by decide) (by decide)
      (by decide) (by decide)⟩

/-- C4 as stated fails where the arithmetic wraps. For committee 7, capacity
1, pool `4294967294` and consensus index 6 the upper bound is 2, while the
formula gives `4294967293`. For a committee of `2 ^ 32` members with capacity
1 the code divides by zero. For committee 1, capacity 1 and a pool of
`2 ^ 32 + 1` nodes the upper bound is 0, while the formula gives `2 ^ 32`. -/
theorem cluster_plan_wraps :
    (DetermineNodesToSendDSBlockTo 7 4294967294 6 1 = some (6, 3681400542, 2)
      ∧ 6 / 1 * poolClusterSize 7 4294967294 1 = 3681400542
      ∧ min (6 / 1 * poolClusterSize 7 4294967294 1 + poolClusterSize 7 4294967294 1 - 1)
          (4294967294 - 1) = 4294967293)
    ∧ DetermineNodesToSendDSBlockTo 4294967296 1 0 1 = none
    ∧ (DetermineNodesToSendDSBlockTo 1 4294967297 0 1 = some (0, 0, 0)
      ∧ min (0 / 1 * poolClusterSize 1 4294967297 1 + poolClusterSize 1 4294967297 1 - 1)
          (4294967297 - 1) = 4294967296) := by
  decide

/-! ## Self identity across rotation and role update -/

/-- The committee `committeeOfSize n` has `n` members. -/
theorem committeeOfSize_length (n : Nat) : (committeeOfSize n).length = n := by
  simp [committeeOfSize]

/-- The member of `committeeOfSize n` at rank `i`. -/
theorem committeeOfSize_get (n i : Nat) (h : i < n) :
    (committeeOfSize n)[i]? = some (⟨100 + i⟩, ⟨i, 2000 + i⟩) := by
  simp [committeeOfSize, List.getElem?_range, h]

/-- The members of `committeeOfSize n` are pairwise distinct. -/
theorem committeeOfSize_nodup (n : Nat) : (committeeOfSize n).Nodup := by
  unfold committeeOfSize
  refine List.Nodup.map ?_ (List.nodup_range _)
  intro i j h
  exact congrArg (fun p => p.2.m_ipAddress) h

/-- A node with a key below 100 is not in `committeeOfSize n`. -/
theorem committeeOfSize_fresh (n : Nat) (k : PubKey) (p : Peer) (hk : k.key < 100) :
    (k, p) ∉ committeeOfSize n := by
  unfold committeeOfSize
  simp only [List.mem_map, not_exists, not_and]
  intro i _ h
  have := congrArg (fun q => q.1.key) h
  simp only at this
  omega

/-- C7 (amended): for a committee in which this node `me` sits at position
`m_consensusMyID`, where a primary does not sit at the last rank
(`index + 1 < committee size`) and `index + 1` does not wrap (the index member
has at most 32 bits and `index + 1` fits in it), after the rotation
(`UpdateDSCommiteeComposition`, any winner) followed by the role update
(`UpdateMyDSModeAndConsensusId`) either the new mode is idle or the committee
member at the new consensus index is this node. Distinct members, a winner
outside the committee and a mode other than idle are not needed for this. -/
theorem rotation_keeps_position (E : Env) (ds : DirectoryService) (winnerpeer : Peer)
    (me : PubKey × Peer) (hbits : E.idBits ≤ 32)
    (hfit : ds.m_consensusMyID + 1 < 2 ^ E.idBits)
    (hme : ds.m_DSCommittee[ds.m_consensusMyID]? = some me)
    (hprimary : ds.m_mode = Mode.PRIMARY_DS →
      ds.m_consensusMyID + 1 < ds.m_DSCommittee.length) :
    (UpdateMyDSModeAndConsensusId E (UpdateDSCommiteeComposition ds winnerpeer)).m_mode
        = Mode.IDLE
    ∨ (UpdateMyDSModeAndConsensusId E (UpdateDSCommiteeComposition ds winnerpeer)).m_DSCommittee[
          (UpdateMyDSModeAndConsensusId E
            (UpdateDSCommiteeComposition ds winnerpeer)).m_consensusMyID]?
        = some me := by
  have hlt : ds.m_consensusMyID < ds.m_DSCommittee.length := by
    by_contra hge
    rw [List.getElem?_eq_none (by omega)] at hme
    exact absurd hme (by simp)
  have hne : ds.m_DSCommittee ≠ [] := by
    intro h
    rw [h] at hlt
    simp at hlt
  have h32 := uint_of_id E _ hbits hfit
  have hw := Nat.mod_eq_of_lt hfit
  have hstep : ds.m_consensusMyID + 1 < ds.m_DSCommittee.length →
      ((ds.m_dsBlockChain.GetLastBlock.header.minerPubKey, winnerpeer)
        :: ds.m_DSCommittee.dropLast)[ds.m_consensusMyID + 1]? = some me := by
    intro hin
    rw [List.getElem?_cons_succ, List.dropLast_eq_take, List.getElem?_take_of_lt (by omega)]
    exact hme
  have hlen : (UpdateDSCommiteeComposition ds winnerpeer).m_DSCommittee.length
      = ds.m_DSCommittee.length := by
    simp only [UpdateDSCommiteeComposition]
    rw [dropLast_push_front _ _ hne]
    have hpos := List.length_pos.mpr hne
    simp only [List.length_cons, List.length_dropLast]
    omega
  have hcom : (UpdateDSCommiteeComposition ds winnerpeer).m_DSCommittee
      = (ds.m_dsBlockChain.GetLastBlock.header.minerPubKey, winnerpeer)
        :: ds.m_DSCommittee.dropLast := by
    simp only [UpdateDSCommiteeComposition]
    exact dropLast_push_front _ _ hne
  have hid : (UpdateDSCommiteeComposition ds winnerpeer).m_consensusMyID
      = ds.m_consensusMyID := rfl
  have hmode : (UpdateDSCommiteeComposition ds winnerpeer).m_mode = ds.m_mode := rfl
  generalize UpdateDSCommiteeComposition ds winnerpeer = rotated at hlen hcom hid hmode ⊢
  unfold UpdateMyDSModeAndConsensusId
  rw [hmode, hid, hlen, h32, hw]
  by_cases hp : ds.m_mode = Mode.PRIMARY_DS
  · right
    rw [if_pos hp]
    show rotated.m_DSCommittee[ds.m_consensusMyID + 1]? = some me
    rw [hcom]
    exact hstep (hprimary hp)
  · rw [if_neg hp]
    by_cases hlast : ds.m_consensusMyID + 1 = ds.m_DSCommittee.length
    · left
      rw [if_pos hlast]
    · right
      rw [if_neg hlast]
      show rotated.m_DSCommittee[ds.m_consensusMyID + 1]? = some me
      rw [hcom]
      exact hstep (by omega)

/-- C7, runs of the amended statement: the primary `peerA` at index 0 of
`[peerA, peerB]` becomes the backup at index 1 of `[peerC, peerA]`, and the
backup `peerB` at index 1 of `[peerA, peerB]` becomes idle. -/
theorem rotation_keeps_position_witness :
    (primaryOfTwo.m_DSCommittee[primaryOfTwo.m_consensusMyID]? = some peerA
      ∧ primaryOfTwo.m_mode = Mode.PRIMARY_DS
      ∧ primaryOfTwo.m_consensusMyID + 1 < primaryOfTwo.m_DSCommittee.length
      ∧ ((UpdateMyDSModeAndConsensusId sampleEnv
            (UpdateDSCommiteeComposition primaryOfTwo peerC.2)).m_mode = Mode.IDLE
        ∨ (UpdateMyDSModeAndConsensusId sampleEnv
            (UpdateDSCommiteeComposition primaryOfTwo peerC.2)).m_DSCommittee[
              (UpdateMyDSModeAndConsensusId sampleEnv
                (UpdateDSCommiteeComposition primaryOfTwo peerC.2)).m_consensusMyID]?
            = some peerA))
    ∧ (freshWinner.m_DSCommittee[freshWinner.m_consensusMyID]? = some peerB
      ∧ freshWinner.m_mode = Mode.BACKUP_DS
      ∧ ((UpdateMyDSModeAndConsensusId sampleEnv
            (UpdateDSCommiteeComposition freshWinner peerC.2)).m_mode = Mode.IDLE
        ∨ (UpdateMyDSModeAndConsensusId sampleEnv
            (UpdateDSCommiteeComposition freshWinner peerC.2)).m_DSCommittee[
              (UpdateMyDSModeAndConsensusId sampleEnv
                (UpdateDSCommiteeComposition freshWinner peerC.2)).m_consensusMyID]?
            = some peerB)) :=
  ⟨⟨by decide, by decide, by decide,
      rotation_keeps_position sampleEnv primaryOfTwo peerC.2 peerA (by decide) (by decide)
        (by decide) (fun _ => by decide)⟩,
    ⟨by decide, by decide,
      rotation_keeps_position sampleEnv freshWinner peerC.2 peerB (by decide) (by decide)
        (by decide) (fun h => absurd h (by decide))⟩⟩

/-- C7 as stated fails. In `soleMember` the committee has one member, this
node, the primary at index 0 (members pairwise distinct, winner `peerC` not in
the committee): the rotation evicts the node, and the role update, which
treats a primary first, makes it a backup with consensus index 1 in the
committee `[peerC]`, which has no member at index 1. In `backupAt65535`, with
a 16-bit consensus index, this node is the backup at index 65535 of a
committee of 65537 distinct members: `index + 1` is not the committee size,
the increment wraps to 0, and the member at index 0 is the winner `peerC`, not
this node. -/
theorem rotation_can_lose_position :
    (soleMember.m_DSCommittee[soleMember.m_consensusMyID]? = some peerA
      ∧ soleMember.m_mode = Mode.PRIMARY_DS
      ∧ soleMember.m_DSCommittee.Nodup
      ∧ (soleMember.m_dsBlockChain.GetLastBlock.header.minerPubKey, peerC.2)
          ∉ soleMember.m_DSCommittee
      ∧ (UpdateMyDSModeAndConsensusId sampleEnv
          (UpdateDSCommiteeComposition soleMember peerC.2)).m_mode = Mode.BACKUP_DS
      ∧ (UpdateMyDSModeAndConsensusId sampleEnv
          (UpdateDSCommiteeComposition soleMember peerC.2)).m_consensusMyID = 1
      ∧ (UpdateMyDSModeAndConsensusId sampleEnv
          (UpdateDSCommiteeComposition soleMember peerC.2)).m_DSCommittee = [peerC]
      ∧ (UpdateMyDSModeAndConsensusId sampleEnv
          (UpdateDSCommiteeComposition soleMember peerC.2)).m_DSCommittee[1]? = none)
    ∧ (backupAt65535.m_DSCommittee[backupAt65535.m_consensusMyID]?
          = some (⟨65635⟩, ⟨65535, 67535⟩)
      ∧ backupAt65535.m_mode = Mode.BACKUP_DS
      ∧ backupAt65535.m_DSCommittee.Nodup
      ∧ (backupAt65535.m_dsBlockChain.GetLastBlock.header.minerPubKey, peerC.2)
          ∉ backupAt65535.m_DSCommittee
      ∧ (UpdateMyDSModeAndConsensusId sixteenBitEnv
          (UpdateDSCommiteeComposition backupAt65535 peerC.2)).m_mode = Mode.BACKUP_DS
      ∧ (UpdateMyDSModeAndConsensusId sixteenBitEnv
          (UpdateDSCommiteeComposition backupAt65535 peerC.2)).m_consensusMyID = 0
      ∧ (UpdateMyDSModeAndConsensusId sixteenBitEnv
          (UpdateDSCommiteeComposition backupAt65535 peerC.2)).m_DSCommittee[0]?
          = some peerC
      ∧ peerC ≠ (⟨65635⟩, ⟨65535, 67535⟩)) := by
  refine ⟨by decide, ?_⟩
  have hne : committeeOfSize 65537 ≠ [] := by
    intro h
    have := committeeOfSize_length 65537
    rw [h] at this
    simp at this
  have hrot : (UpdateDSCommiteeComposition backupAt65535 peerC.2).m_DSCommittee
      = peerC :: (committeeOfSize 65537).dropLast :=
    dropLast_push_front _ _ hne
  have hrlen : (UpdateDSCommiteeComposition backupAt65535 peerC.2).m_DSCommittee.length
      = 65537 := by
    rw [hrot, List.length_cons, List.length_dropLast, committeeOfSize_length]
  have hid : (UpdateDSCommiteeComposition backupAt65535 peerC.2).m_consensusMyID = 65535 := rfl
  have hmode : (UpdateDSCommiteeComposition backupAt65535 peerC.2).m_mode
      = Mode.BACKUP_DS := rfl
  refine ⟨committeeOfSize_get 65537 65535 (by decide), rfl, committeeOfSize_nodup 65537,
    committeeOfSize_fresh 65537 _ _ (by decide), ?_⟩
  generalize UpdateDSCommiteeComposition backupAt65535 peerC.2 = rotated
    at hrot hrlen hid hmode
  unfold UpdateMyDSModeAndConsensusId
  rw [hmode, hid, hrlen]
  have h1 : ¬ (Mode.BACKUP_DS = Mode.PRIMARY_DS) := by decide
  have h2 : ¬ ((65535 + 1) % UINT_MOD = 65537) := by decide
  rw [if_neg h1, if_neg h2]
  refine ⟨rfl, ?_, ?_, by decide⟩
  · show (65535 + 1) % 2 ^ sixteenBitEnv.idBits = 0
    decide
  · show rotated.m_DSCommittee[0]? = some peerC
    rw [hrot]
    exact List.getElem?_cons_zero

/-! ## Framing of the DSBLOCK message -/

/-- The two copies into the resized vector leave the two bytes of the message
type, then the seed, then the raw message. -/
theorem copyAt_layout (a b : Nat) (rand raw : Bytes) (hrand : rand.length = BLOCK_HASH_SIZE) :
    copyAt (copyAt ([a, b] ++ List.replicate (BLOCK_HASH_SIZE + raw.length) 0)
        MessageOffset.BODY rand) (MessageOffset.BODY + BLOCK_HASH_SIZE) raw
      = [a, b] ++ rand ++ raw := by
  have h32 : BLOCK_HASH_SIZE = 32 := rfl
  have h2 : MessageOffset.BODY = 2 := rfl
  rw [h32] at hrand
  rw [h32, h2]
  unfold copyAt
  simp only [hrand]
  have e1 : List.take 2 ([a, b] ++ List.replicate (32 + raw.length) 0) = [a, b] := by
    simp [List.take_append_eq_append_take]
  have e2 : List.drop (2 + 32) ([a, b] ++ List.replicate (32 + raw.length) 0)
      = List.replicate raw.length 0 := by
    simp [List.drop_append_eq_append_drop]
  rw [e1, e2]
  have e3 : List.take (2 + 32) ([a, b] ++ rand ++ List.replicate raw.length 0)
      = [a, b] ++ rand := by
    rw [List.take_append_eq_append_take]
    simp [hrand]
  have e4 : List.drop (2 + 32 + raw.length) ([a, b] ++ rand ++ List.replicate raw.length 0)
      = [] := by
    apply List.drop_eq_nil_of_le
    simp [hrand]; omega
  rw [e3, e4]
  simp

/-- C8: for a seed of `BLOCK_HASH_SIZE` (32) bytes and any raw message, the
message built by `SendDSBlockToLookupNodes` and the one built by
`SendDSBlockToCluster` are the same byte string: the bytes `NODE`, `DSBLOCK`,
then the seed, then the raw message unmodified; its length is 34 plus the
length of the raw message, and dropping 34 bytes gives back the raw message.
This is the message handed to the lookup nodes and, when the cluster range is
valid, to the cluster. -/
theorem dsblock_message_framing (E : Env) (ds : DirectoryService)
    (hrand : ds.m_dsBlockRand.length = BLOCK_HASH_SIZE) :
    SendDSBlockToLookupNodes.dsblock_message E ds = SendDSBlockToCluster.dsblock_message E ds
    ∧ SendDSBlockToLookupNodes.dsblock_message E ds
        = [E.NODE, E.DSBLOCK] ++ ds.m_dsBlockRand ++ ds.m_DSBlockConsensusRawMessage
    ∧ (SendDSBlockToLookupNodes.dsblock_message E ds).length
        = 34 + ds.m_DSBlockConsensusRawMessage.length
    ∧ (SendDSBlockToLookupNodes.dsblock_message E ds).drop 34 = ds.m_DSBlockConsensusRawMessage
    ∧ (SendDSBlockToLookupNodes E ds).lookupSent
        = ds.lookupSent ++ [[E.NODE, E.DSBLOCK] ++ ds.m_dsBlockRand
            ++ ds.m_DSBlockConsensusRawMessage]
    ∧ ∀ lo hi, (SendDSBlockToCluster E ds lo hi).fault = none →
        ∃ pow1nodes_cluster, (SendDSBlockToCluster E ds lo hi).state.broadcastSent
          = ds.broadcastSent ++ [(pow1nodes_cluster, [E.NODE, E.DSBLOCK] ++ ds.m_dsBlockRand
              ++ ds.m_DSBlockConsensusRawMessage)] := by
  have hL : SendDSBlockToLookupNodes.dsblock_message E ds
      = [E.NODE, E.DSBLOCK] ++ ds.m_dsBlockRand ++ ds.m_DSBlockConsensusRawMessage :=
    copyAt_layout _ _ _ _ hrand
  have hC : SendDSBlockToCluster.dsblock_message E ds
      = [E.NODE, E.DSBLOCK] ++ ds.m_dsBlockRand ++ ds.m_DSBlockConsensusRawMessage :=
    copyAt_layout _ _ _ _ hrand
  have h32 : ds.m_dsBlockRand.length = 32 := hrand
  refine ⟨by rw [hL, hC], hL, ?_, ?_, ?_, ?_⟩
  · rw [hL]; simp [h32]; omega
  · rw [hL]
    have : ([E.NODE, E.DSBLOCK] ++ ds.m_dsBlockRand).length = 34 := by simp [h32]
    rw [List.drop_append_eq_append_drop, this]
    simp
    omega
  · simp only [SendDSBlockToLookupNodes, hL]
  · intro lo hi hfault
    unfold SendDSBlockToCluster at hfault ⊢
    simp only [hC] at hfault ⊢
    split at hfault
    · split at hfault
      · next h1 h2 => rw [if_pos h1, if_pos h2]; exact ⟨_, rfl⟩
      · simp at hfault
    · split at hfault
      · next h1 h2 => rw [if_neg h1, if_pos h2]; exact ⟨_, rfl⟩
      · simp at hfault

/-- C8 on the finished round `pendingRound`: seed of 32 zero bytes and raw
message `[0, 0, 5, 6]`. -/
theorem dsblock_message_framing_witness :
    pendingRound.m_dsBlockRand.length = BLOCK_HASH_SIZE
    ∧ SendDSBlockToLookupNodes.dsblock_message sampleEnv pendingRound
        = SendDSBlockToCluster.dsblock_message sampleEnv pendingRound
    ∧ SendDSBlockToLookupNodes.dsblock_message sampleEnv pendingRound
        = [2, 2] ++ List.replicate 32 0 ++ [0, 0, 5, 6]
    ∧ (SendDSBlockToLookupNodes.dsblock_message sampleEnv pendingRound).length = 34 + 4
    ∧ (SendDSBlockToLookupNodes.dsblock_message sampleEnv pendingRound).drop 34
        = [0, 0, 5, 6] :=
  ⟨by decide,
    (dsblock_message_framing sampleEnv pendingRound (by decide)).1,
    (dsblock_message_framing sampleEnv pendingRound (by decide)).2.1,
    (dsblock_message_framing sampleEnv pendingRound (by decide)).2.2.1,
    (dsblock_message_framing sampleEnv pendingRound (by decide)).2.2.2.1⟩

/-! ## What the steps after storing leave alone -/

/-- Sending to a cluster changes neither the committed part nor the
membership, and never raises the missing-winner fault. -/
theorem cluster_frame (E : Env) (ds : DirectoryService) (lo hi : Nat) :
    (SendDSBlockToCluster E ds lo hi).state.committed = ds.committed
    ∧ (SendDSBlockToCluster E ds lo hi).state.membership = ds.membership
    ∧ (SendDSBlockToCluster E ds lo hi).fault ≠ some Fault.winnerNotInPoWConns := by
  unfold SendDSBlockToCluster
  simp only []
  split
  · split <;> exact ⟨rfl, rfl, by simp⟩
  · split <;> exact ⟨rfl, rfl, by simp⟩

/-- Lines 332-347, started from a record that agrees with `ds` on the
committed part and the membership. -/
theorem send_from (E : Env) (ds ds1 : DirectoryService)
    (h1 : ds1.committed = ds.committed) (h2 : ds1.membership = ds.membership) :
    let sent : Outcome :=
      match ds1.DetermineNodesToSendDSBlockTo E with
      | none => { fault := some Fault.divisionByZero, state := ds1 }
      | some (my_DS_cluster_num, my_pow1nodes_cluster_lo, my_pow1nodes_cluster_hi) =>
        if (my_DS_cluster_num + 1) % UINT_MOD ≤ ds1.m_allPoWConns.length
        then SendDSBlockToCluster E ds1 my_pow1nodes_cluster_lo my_pow1nodes_cluster_hi
        else { fault := none, state := ds1 }
    sent.state.committed = ds.committed ∧ sent.state.membership = ds.membership
      ∧ sent.fault ≠ some Fault.winnerNotInPoWConns := by
  intro sent
  show sent.state.committed = ds.committed ∧ sent.state.membership = ds.membership
      ∧ sent.fault ≠ some Fault.winnerNotInPoWConns
  rw [← h1, ← h2]
  simp only [sent]
  split
  · exact ⟨rfl, rfl, by simp⟩
  · split
    · exact cluster_frame E ds1 _ _
    · exact ⟨rfl, rfl, by simp⟩

/-- The sending stage changes neither the committed part nor the membership,
and never raises the missing-winner fault. -/
theorem send_frame (E : Env) (ds : DirectoryService) :
    (ProcessDSBlockConsensusWhenDone.send E ds).state.committed = ds.committed
    ∧ (ProcessDSBlockConsensusWhenDone.send E ds).state.membership = ds.membership
    ∧ (ProcessDSBlockConsensusWhenDone.send E ds).fault ≠ some Fault.winnerNotInPoWConns := by
  unfold ProcessDSBlockConsensusWhenDone.send
  simp only []
  refine send_from E ds _ ?_ ?_
  · split <;> rfl
  · split <;> rfl

/-- The rotation stage leaves the committed part alone. -/
theorem rotate_frame (E : Env) (t : Bool) (ds : DirectoryService) (winnerpeer : Peer) :
    (ProcessDSBlockConsensusWhenDone.rotate E t ds winnerpeer).committed = ds.committed := by
  have hrole : ∀ s, (UpdateMyDSModeAndConsensusId E s).committed = s.committed := by
    intro s
    unfold UpdateMyDSModeAndConsensusId
    split
    · rfl
    · split <;> rfl
  have hs : (UpdateMyDSModeAndConsensusId E
      (UpdateDSCommiteeComposition ds winnerpeer)).committed = ds.committed := hrole _
  unfold ProcessDSBlockConsensusWhenDone.rotate
  simp only []
  generalize UpdateMyDSModeAndConsensusId E (UpdateDSCommiteeComposition ds winnerpeer) = s
    at hs ⊢
  rw [← hs]
  split
  · split
    · split <;> rfl
    · split <;> rfl
  · rfl

/-- What `StoreDSBlockToStorage` does when a block is pending. -/
theorem store_eq (E : Env) (ds : DirectoryService) (b : DSBlock)
    (hp : ds.m_pendingDSBlock = some b) :
    StoreDSBlockToStorage E ds =
      { fault := none
        state := { ds with
          m_dsBlockChain := (DSBlockChain.AddBlock E.accepts ds.m_dsBlockChain b).2
          m_latestActiveDSBlockNum := b.header.blockNum % SIZE_MOD
          storage :=
            { dsBlocks := ds.storage.dsBlocks ++ [(b.header.blockNum, E.Serialize b [] 0)]
              txBodyDBs := ds.storage.txBodyDBs ++ [b.header.blockNum]
              metadata := ds.storage.metadata ++
                [(MetaType.LATESTACTIVEDSBLOCKNUM,
                  DataConversion.StringToCharArray (b.header.blockNum % SIZE_MOD))] } } } := by
  unfold StoreDSBlockToStorage
  rw [hp]

/-- However a run of the done-handler on a pending block ends, the block has
been offered to the chain and written to storage, and the latest active block
number is the number of the block. -/
theorem whenDone_committed (E : Env) (t : Bool) (ds : DirectoryService) (message : Bytes)
    (offset : Nat) (b : DSBlock) (c : ConsensusObject)
    (hp : ds.m_pendingDSBlock = some b) (hc : ds.m_consensusObject = some c) :
    (ProcessDSBlockConsensusWhenDone E t ds message offset).state.committed
      = ((DSBlockChain.AddBlock E.accepts ds.m_dsBlockChain (b.SetCoSignatures c)).2,
          b.header.blockNum % SIZE_MOD,
          { dsBlocks := ds.storage.dsBlocks
              ++ [(b.header.blockNum, E.Serialize (b.SetCoSignatures c) [] 0)]
            txBodyDBs := ds.storage.txBodyDBs ++ [b.header.blockNum]
            metadata := ds.storage.metadata ++
              [(MetaType.LATESTACTIVEDSBLOCKNUM,
                DataConversion.StringToCharArray (b.header.blockNum % SIZE_MOD))] },
          some c) := by
  unfold ProcessDSBlockConsensusWhenDone
  simp only [hp, hc]
  rw [store_eq E _ (b.SetCoSignatures c) rfl]
  simp only []
  split
  · simp only [DirectoryService.committed, DSBlock.SetCoSignatures, hc]
  · split
    · rw [(send_frame E _).1]
      simp only [DirectoryService.committed, DSBlock.SetCoSignatures, hc]
    · rw [rotate_frame, (send_frame E _).1]
      simp only [DirectoryService.committed, DSBlock.SetCoSignatures, hc]

/-- The done-handler never replaces the consensus object. -/
theorem whenDone_object (E : Env) (t : Bool) (ds : DirectoryService) (message : Bytes)
    (offset : Nat) :
    (ProcessDSBlockConsensusWhenDone E t ds message offset).state.m_consensusObject
      = ds.m_consensusObject := by
  cases hp : ds.m_pendingDSBlock with
  | none =>
    unfold ProcessDSBlockConsensusWhenDone
    simp only [hp]
  | some b =>
    cases hc : ds.m_consensusObject with
    | none =>
      unfold ProcessDSBlockConsensusWhenDone
      simp only [hp, hc]
    | some c =>
      have h := whenDone_committed E t ds message offset b c hp hc
      have h2 := congrArg (fun x => x.2.2.2) h
      exact h2

/-! ## The winner lookup and the chain -/

/-- The block appended last is the last block. -/
theorem getLastBlock_append (chain : DSBlockChain) (block : DSBlock) :
    DSBlockChain.GetLastBlock (chain ++ [block]) = block := by
  unfold DSBlockChain.GetLastBlock
  simp

/-- C9 (amended): after a finalization with a pending block and a consensus
object, when the chain took the block, its last block is the pending block
with the co-signatures of the consensus object (same block number, those
co-signatures); when the chain refused the block, the chain is what it was
before the call, while the latest active block number still becomes the
number of the pending block. -/
theorem finalized_block_is_last (E : Env) (t : Bool) (ds : DirectoryService)
    (message : Bytes) (offset : Nat) (b : DSBlock) (c : ConsensusObject)
    (hp : ds.m_pendingDSBlock = some b) (hc : ds.m_consensusObject = some c) :
    (E.accepts ds.m_dsBlockChain (b.SetCoSignatures c) = true →
        (ProcessDSBlockConsensusWhenDone E t ds message offset).state.m_dsBlockChain.GetLastBlock
            = b.SetCoSignatures c
        ∧ (ProcessDSBlockConsensusWhenDone E t ds message
            offset).state.m_dsBlockChain.GetLastBlock.header.blockNum = b.header.blockNum
        ∧ (ProcessDSBlockConsensusWhenDone E t ds message
            offset).state.m_dsBlockChain.GetLastBlock.cosigs = c.cosigs)
    ∧ (E.accepts ds.m_dsBlockChain (b.SetCoSignatures c) = false →
        (ProcessDSBlockConsensusWhenDone E t ds message offset).state.m_dsBlockChain
            = ds.m_dsBlockChain
        ∧ (ProcessDSBlockConsensusWhenDone E t ds message offset).state.m_latestActiveDSBlockNum
            = b.header.blockNum % SIZE_MOD) := by
  have hcom := whenDone_committed E t ds message offset b c hp hc
  have hchain := congrArg (fun x => x.1) hcom
  have hnum := congrArg (fun x => x.2.1) hcom
  simp only [DirectoryService.committed] at hchain hnum
  constructor
  · intro hacc
    have hlast : (ProcessDSBlockConsensusWhenDone E t ds message
        offset).state.m_dsBlockChain.GetLastBlock = b.SetCoSignatures c := by
      rw [hchain]
      unfold DSBlockChain.AddBlock
      rw [if_pos hacc]
      exact getLastBlock_append _ _
    exact ⟨hlast, by rw [hlast]; rfl, by rw [hlast]; rfl⟩
  · intro hrej
    refine ⟨?_, hnum⟩
    rw [hchain]
    unfold DSBlockChain.AddBlock
    rw [if_neg (by simp [hrej])]

/-- C9, a run of the amended statement: in `pendingRound` the chain takes
block 1, which is then the last block with the co-signatures of the consensus
object. -/
theorem finalized_block_is_last_witness :
    sampleEnv.accepts pendingRound.m_dsBlockChain
        ((blockMinedBy 1 peerC.1).SetCoSignatures doneObject) = true
    ∧ (ProcessDSBlockConsensusWhenDone sampleEnv false pendingRound [] 0).state.m_dsBlockChain.GetLastBlock.header.blockNum
        = 1
    ∧ (ProcessDSBlockConsensusWhenDone sampleEnv false pendingRound [] 0).state.m_dsBlockChain.GetLastBlock.cosigs
        = doneObject.cosigs :=
  ⟨by decide,
    ((finalized_block_is_last sampleEnv false pendingRound [] 0 (blockMinedBy 1 peerC.1)
      doneObject rfl rfl).1 (by decide)).2.1,
    ((finalized_block_is_last sampleEnv false pendingRound [] 0 (blockMinedBy 1 peerC.1)
      doneObject rfl rfl).1 (by decide)).2.2⟩

/-- C9 as stated fails when the append is refused: in `staleRound` the pending
block 3 is refused by a chain that ends with block 5, the run completes
without a fault, and the last block of the chain is still block 5 without
co-signatures, not the pending block with the co-signatures attached. -/
theorem refused_block_is_not_last :
    staleRound.m_pendingDSBlock = some (blockMinedBy 3 peerC.1)
    ∧ staleRound.m_consensusObject = some doneObject
    ∧ (DSBlockChain.AddBlock sampleEnv.accepts staleRound.m_dsBlockChain
        ((blockMinedBy 3 peerC.1).SetCoSignatures doneObject)).1 = -1
    ∧ (ProcessDSBlockConsensusWhenDone sampleEnv false staleRound [] 0).fault = none
    ∧ (ProcessDSBlockConsensusWhenDone sampleEnv false staleRound [] 0).state.m_dsBlockChain.GetLastBlock.header.blockNum
        = 5
    ∧ (ProcessDSBlockConsensusWhenDone sampleEnv false staleRound [] 0).state.m_dsBlockChain.GetLastBlock.cosigs
        ≠ doneObject.cosigs := by
  decide

/-! ## The admission gate -/

/-- The two ways a call of `ProcessDSBlockConsensus` can go: either
`ProcessMessage` is not called (and the call returns `false` when the
predicate held at no evaluation), or the predicate held at some evaluation
`s0`, and `ProcessMessage` was called on the consensus object of a record `s`
the call found; unless consensus is then done, only the consensus object of
`s` is replaced. -/
theorem gate_cases (E : Env) (I : Interference) (ds : DirectoryService) (message : Bytes)
    (offset : Nat) (sender : Peer) :
    ((ProcessDSBlockConsensus E I ds message offset sender).applied = false
      ∧ ((∀ s ∈ ds :: I.reevaluations, admissionPredicate E message offset s = false) →
          (ProcessDSBlockConsensus E I ds message offset sender).result = false))
    ∨ ∃ s0 s c,
        s0 ∈ ds :: I.reevaluations ∧ admissionPredicate E message offset s0 = true
        ∧ s ∈ ds :: (I.reevaluations ++ I.afterObjectWait.toList)
        ∧ s.m_consensusObject = some c
        ∧ (ProcessDSBlockConsensus E I ds message offset sender).applied = true
        ∧ (ProcessDSBlockConsensus E I ds message offset sender).outcome.state.m_consensusObject
            = some (E.ProcessMessage c message offset sender).2
        ∧ ((E.ProcessMessage c message offset sender).2.state ≠ ConsensusState.DONE →
            (ProcessDSBlockConsensus E I ds message offset sender).outcome
              = { fault := none
                  state := { s with
                    m_consensusObject := some (E.ProcessMessage c message offset sender).2 } }) := by
  unfold ProcessDSBlockConsensus
  cases hfind : waitForCorrectOrder E message offset ds I.reevaluations with
  | none =>
    left
    exact ⟨rfl, fun _ => rfl⟩
  | some s0 =>
    have hmem0 : s0 ∈ ds :: I.reevaluations := List.mem_of_find?_eq_some hfind
    have hpred : admissionPredicate E message offset s0 = true := List.find?_some hfind
    simp only []
    have hmem : (if s0.m_state = DirState.POW1_SUBMISSION
          ∨ s0.m_state = DirState.DSBLOCK_CONSENSUS_PREP
        then I.afterObjectWait.getD s0 else s0)
        ∈ ds :: (I.reevaluations ++ I.afterObjectWait.toList) := by
      split
      · cases hw : I.afterObjectWait with
        | none =>
          simp only [Option.getD_none, Option.toList, List.append_nil]
          exact hmem0
        | some w => simp
      · rw [← List.cons_append]
        exact List.mem_append_left _ hmem0
    generalize (if s0.m_state = DirState.POW1_SUBMISSION
          ∨ s0.m_state = DirState.DSBLOCK_CONSENSUS_PREP
        then I.afterObjectWait.getD s0 else s0) = s at hmem ⊢
    split
    · left
      exact ⟨rfl, fun _ => rfl⟩
    · cases hc : s.m_consensusObject with
      | none =>
        left
        exact ⟨rfl, fun _ => rfl⟩
      | some c =>
        right
        refine ⟨s0, s, c, hmem0, hpred, hmem, hc, ?_⟩
        simp only []
        cases hst : (E.ProcessMessage c message offset sender).2.state with
        | DONE =>
          refine ⟨rfl, ?_, fun h => absurd rfl h⟩
          simp only []
          rw [whenDone_object]
        | ERROR => exact ⟨rfl, rfl, fun _ => rfl⟩
        | ACTIVE => exact ⟨rfl, rfl, fun _ => rfl⟩

/-- C10 (amended): when `ProcessMessage` was called and left the consensus
object in state `ERROR`, the call ends without a fault, and the record it
leaves is a record `s` the call found (the one it was called on when no other
thread changed it) with only the consensus object replaced: the view-change
counter is not reset but kept, and committee, pool, mode, consensus index and
chain are those of `s`. -/
theorem error_state_changes_nothing (E : Env) (I : Interference) (ds : DirectoryService)
    (message : Bytes) (offset : Nat) (sender : Peer) (c1 : ConsensusObject)
    (happ : (ProcessDSBlockConsensus E I ds message offset sender).applied = true)
    (hobj : (ProcessDSBlockConsensus E I ds message offset sender).outcome.state.m_consensusObject
      = some c1)
    (herr : c1.state = ConsensusState.ERROR) :
    (ProcessDSBlockConsensus E I ds message offset sender).outcome.fault = none
    ∧ ∃ s ∈ ds :: (I.reevaluations ++ I.afterObjectWait.toList),
        (ProcessDSBlockConsensus E I ds message offset sender).outcome.state
          = { s with m_consensusObject := some c1 }
        ∧ (ProcessDSBlockConsensus E I ds message offset sender).outcome.state.m_viewChangeCounter
          = s.m_viewChangeCounter
        ∧ (ProcessDSBlockConsensus E I ds message offset sender).outcome.state.membership
          = s.membership
        ∧ (ProcessDSBlockConsensus E I ds message offset sender).outcome.state.m_dsBlockChain
          = s.m_dsBlockChain := by
  rcases gate_cases E I ds message offset sender with
    ⟨hnot, _⟩ | ⟨_, s, c, _, _, hmem, _, _, hafter, hout⟩
  · rw [hnot] at happ
    exact absurd happ (by simp)
  · rw [hafter] at hobj
    have hc1 : (E.ProcessMessage c message offset sender).2 = c1 := Option.some.inj hobj
    have hnd : (E.ProcessMessage c message offset sender).2.state ≠ ConsensusState.DONE := by
      rw [hc1, herr]
      decide
    rw [hout hnd, hc1]
    exact ⟨rfl, s, hmem, rfl, rfl, rfl, rfl⟩

/-- C10, a run of the amended statement: the message `[7, 2]` leaves the
consensus object of `runningRound` in state `ERROR`; nothing else changes. -/
theorem error_state_changes_nothing_witness :
    (ProcessDSBlockConsensus sampleEnv quiet runningRound [7, 2] 0 peerA.2).applied = true
    ∧ (ProcessDSBlockConsensus sampleEnv quiet runningRound [7, 2] 0 peerA.2).outcome.fault
        = none
    ∧ ∃ s ∈ runningRound :: (quiet.reevaluations ++ quiet.afterObjectWait.toList),
        (ProcessDSBlockConsensus sampleEnv quiet runningRound [7, 2] 0 peerA.2).outcome.state
          = { s with m_consensusObject := some errorObject }
        ∧ (ProcessDSBlockConsensus sampleEnv quiet runningRound [7, 2] 0
            peerA.2).outcome.state.m_viewChangeCounter = s.m_viewChangeCounter
        ∧ (ProcessDSBlockConsensus sampleEnv quiet runningRound [7, 2] 0
            peerA.2).outcome.state.membership = s.membership
        ∧ (ProcessDSBlockConsensus sampleEnv quiet runningRound [7, 2] 0
            peerA.2).outcome.state.m_dsBlockChain = s.m_dsBlockChain :=
  ⟨by decide,
    error_state_changes_nothing sampleEnv quiet runningRound [7, 2] 0 peerA.2 errorObject
      (by decide) (by decide) (by decide)⟩

/-- C10 as stated fails: in `runningRound` the view-change counter is 3; the
message `[7, 2]` is applied and leaves the consensus object in state `ERROR`,
and the counter is still 3 afterwards, not 0. -/
theorem error_state_keeps_counter :
    runningRound.m_viewChangeCounter = 3
    ∧ (ProcessDSBlockConsensus sampleEnv quiet runningRound [7, 2] 0 peerA.2).applied = true
    ∧ (ProcessDSBlockConsensus sampleEnv quiet runningRound [7, 2] 0
        peerA.2).outcome.state.m_consensusObject.map (fun c => c.state)
        = some ConsensusState.ERROR
    ∧ (ProcessDSBlockConsensus sampleEnv quiet runningRound [7, 2] 0
        peerA.2).outcome.state.m_viewChangeCounter = 3 := by
  decide

/-! ## The range handed to `SendDSBlockToCluster` -/

/-- When nothing wraps and this node's cluster starts inside the pool
(`clusterIndex * poolClusterSize < candidatePoolSize`), the range computed by
`DetermineNodesToSendDSBlockTo` satisfies `rangeLo ≤ rangeHi ≤
candidatePoolSize - 1`, and `SendDSBlockToCluster` on a pool of that size
stays inside the map. -/
theorem nonempty_cluster_range_valid (E : Env) (ds : DirectoryService)
    (committeeSize powSize consensusMyID clusterSize : Nat)
    (hcap : 1 ≤ clusterSize) (hC : 1 ≤ committeeSize) (hC32 : committeeSize < 2 ^ 32)
    (hP32 : powSize < 2 ^ 32)
    (hfit : (consensusMyID / clusterSize + 1)
      * poolClusterSize committeeSize powSize clusterSize ≤ 2 ^ 32)
    (hlen : ds.m_allPoWConns.length = powSize)
    (hstart : consensusMyID / clusterSize * poolClusterSize committeeSize powSize clusterSize
      < powSize) :
    ∃ lo hi,
      DetermineNodesToSendDSBlockTo committeeSize powSize consensusMyID clusterSize
        = some (consensusMyID / clusterSize, lo, hi)
      ∧ lo ≤ hi ∧ hi + 1 ≤ powSize
      ∧ (SendDSBlockToCluster E ds lo hi).fault = none := by
  have hP : 1 ≤ powSize := by omega
  have hn1 : 1 ≤ clusterCount committeeSize clusterSize := ceilDiv_pos _ _ hC hcap
  have hs1 : 1 ≤ poolClusterSize committeeSize powSize clusterSize := ceilDiv_pos _ _ hP hn1
  have hplan := plan_no_wrap committeeSize powSize consensusMyID clusterSize hcap hC hC32 hP
    hP32 hfit
  generalize poolClusterSize committeeSize powSize clusterSize = s at *
  generalize consensusMyID / clusterSize * s = lo at *
  have hmin1 : min (lo + s - 1) (powSize - 1) ≤ powSize - 1 := Nat.min_le_right _ _
  have hmin2 : lo ≤ min (lo + s - 1) (powSize - 1) := Nat.le_min.mpr ⟨by omega, by omega⟩
  refine ⟨lo, min (lo + s - 1) (powSize - 1), hplan, hmin2, by omega, ?_⟩
  unfold SendDSBlockToCluster
  simp only []
  have hM : UINT_MOD = 2 ^ 32 := rfl
  rw [if_pos hmin2, if_pos ⟨by omega, by omega⟩]

/-- A run of the statement above: committee 45, capacity 20, pool 100, this
node at index 40 (cluster 2) sends to the range [68, 99] without fault. -/
theorem nonempty_cluster_range_valid_witness :
    ∃ lo hi,
      DetermineNodesToSendDSBlockTo 45 100 40 20 = some (40 / 20, lo, hi)
      ∧ lo ≤ hi ∧ hi + 1 ≤ 100
      ∧ (SendDSBlockToCluster sampleEnv manyCandidates lo hi).fault = none :=
  nonempty_cluster_range_valid sampleEnv manyCandidates 45 100 40 20 (by decide) (by decide)
    (by decide) (by decide) (by decide) (by decide) (by decide)

/-- C11 at a committee of 80 (capacity 20, so 4 clusters), a pool of 5
candidates and this node at index 60 (cluster 3): the pool is cut into
clusters of 2, the guard of line 344 passes (`3 + 1 ≤ 5`), and the range
handed to `SendDSBlockToCluster` is `rangeLo = 6`, `rangeHi = 4`. So
`rangeLo ≤ rangeHi` fails, and `rangeLo` is beyond the 5 entries of the map:
advancing the iterator by 6 leaves the map, which the embedding reports as
`iteratorOutOfRange`. At a committee of 60, a pool of 4 and index 40 the guard
passes too and the range is `rangeLo = 4`, `rangeHi = 3`: the iterator stops
at `end()`, no entry is visited and an empty list of peers is broadcast to. -/
theorem guard_passes_range_past_end :
    (1 ≤ fewCandidates.m_DSCommittee.length
      ∧ fewCandidates.m_DSCommittee.length = 80
      ∧ fewCandidates.m_consensusMyID < fewCandidates.m_DSCommittee.length
      ∧ fewCandidates.m_allPoWConns.length = 5
      ∧ fewCandidates.DetermineNodesToSendDSBlockTo sampleEnv = some (3, 6, 4)
      ∧ (3 + 1) % UINT_MOD ≤ fewCandidates.m_allPoWConns.length
      ∧ ¬ (6 ≤ 4)
      ∧ ¬ (6 ≤ fewCandidates.m_allPoWConns.length)
      ∧ (SendDSBlockToCluster sampleEnv fewCandidates 6 4).fault
          = some Fault.iteratorOutOfRange
      ∧ (ProcessDSBlockConsensusWhenDone.send sampleEnv fewCandidates).fault
          = some Fault.iteratorOutOfRange)
    ∧ (fourCandidates.m_DSCommittee.length = 60
      ∧ fourCandidates.m_consensusMyID < fourCandidates.m_DSCommittee.length
      ∧ fourCandidates.m_allPoWConns.length = 4
      ∧ fourCandidates.DetermineNodesToSendDSBlockTo sampleEnv = some (2, 4, 3)
      ∧ (2 + 1) % UINT_MOD ≤ fourCandidates.m_allPoWConns.length
      ∧ ¬ (4 ≤ 3)
      ∧ (ProcessDSBlockConsensusWhenDone.send sampleEnv fourCandidates).fault = none
      ∧ (ProcessDSBlockConsensusWhenDone.send sampleEnv fourCandidates).state.broadcastSent.map
          (fun sent => sent.1) = [[]]) := by
  decide

end Zilliqa
